import Mathlib

/-!
# Figma-to-code translation engine: a shallow embedding

This file embeds the core of the `figma-mcp` repository in Lean 4 and proves
properties of it: the design-token resolver (`src/tokens/resolver.ts`), the
translator registry (`src/translator/registry.ts`), the SwiftUI frame/text
translators, the Jetpack Compose layout translator
(`src/translator/compose/primitives.ts`), the configurable component
translator, the tree-pruning pass (`src/core/optimization.ts`) and the
component-discovery merge (`src/core/schemas.ts` / discovery module).

Numbers are embedded as rationals (`ℚ`): every numeric value and comparison
appearing in the translated code paths is exact at the inputs considered, so
no floating-point rounding is modelled.  JavaScript `Array.prototype.sort`
with a numeric comparator is required to be stable, so it is embedded as
`List.mergeSort` (a stable sort) with the boolean `≤`-relation induced by the
comparator key.  JavaScript string building (`push` onto a `lines` array and
`join('\n')`) is embedded as a `List String` joined with
`String.intercalate "\n"`.
-/

namespace FigmaMcp

/-- JavaScript truthiness of an optional number: `undefined` and `0` are
falsy, every other number is truthy. -/
def numTruthy (x : Option ℚ) : Bool :=
  match x with
  | none => false
  | some v => v ≠ 0

/-- JavaScript truthiness of an optional string: `undefined` and `""` are
falsy. -/
def strTruthy (x : Option String) : Bool :=
  match x with
  | none => false
  | some s => s ≠ ""

/-- JavaScript `===` on two possibly-`undefined` numbers. -/
def optNumEq (a b : Option ℚ) : Bool :=
  match a, b with
  | none, none => true
  | some x, some y => x = y
  | _, _ => false

/-- `Math.round` of JavaScript for the (nonnegative-or-not) rationals used
here: round half toward positive infinity, i.e. `⌊x + 1/2⌋`. -/
def jsRound (q : ℚ) : ℤ := ⌊q + (1 : ℚ)/2⌋

/-- Decimal digits of a fractional part `f ∈ [0,1)`, with fuel; stops at the
first zero remainder.  Models the terminating-decimal case of JavaScript
number printing, which is the only case arising at the inputs used here. -/
def fracDigits : ℕ → ℚ → List Char
  | 0, _ => []
  | n + 1, f =>
    if f = 0 then []
    else
      let f10 := f * 10
      let d := (⌊f10⌋ : ℤ).toNat
      Nat.digitChar d :: fracDigits n (f10 - ⌊f10⌋)

/-- JavaScript `String(n)` / template interpolation of a number, for numbers
whose decimal expansion terminates within 10 digits (all numbers interpolated
by the translated code at the inputs considered are of this form). -/
def numToStr (q : ℚ) : String :=
  let sgn := if q < 0 then "-" else ""
  let a := |q|
  let ip := (⌊a⌋ : ℤ).toNat
  let ds := fracDigits 10 (a - ⌊a⌋)
  sgn ++ toString ip ++ (if ds.isEmpty then "" else "." ++ String.mk ds)

/-- JavaScript `Number.prototype.toFixed(d)`: fixed-point rendering with `d`
fractional digits (rounding as `Math.round` on the scaled value, which agrees
with `toFixed` at the non-tie inputs used here). -/
def toFixed (d : ℕ) (q : ℚ) : String :=
  let sgn := if q < 0 then "-" else ""
  let scaled := (jsRound (|q| * (10 : ℚ) ^ d)).toNat
  let ip := scaled / 10 ^ d
  let fr := scaled % 10 ^ d
  let frStr := toString fr
  let pad := String.mk (List.replicate (d - frStr.length) '0')
  sgn ++ toString ip ++ (if d = 0 then "" else "." ++ pad ++ frStr)

/-- Lowercase hexadecimal digits of a natural number
(JavaScript `n.toString(16)` for `n ≥ 0`). -/
def natToHex (n : ℕ) : String := String.mk (Nat.toDigits 16 n)

/-- JavaScript `n.toString(16)` for an integer. -/
def intToHex (i : ℤ) : String :=
  if i < 0 then "-" ++ natToHex i.natAbs else natToHex i.toNat

/-- JavaScript `String.prototype.padStart(2, '0')`. -/
def padStart2 (s : String) : String :=
  if s.length < 2 then String.mk (List.replicate (2 - s.length) '0') ++ s else s

/-- Does the character list start with the pattern? -/
def charsStartWith : List Char → List Char → Bool
  | _, [] => true
  | [], _ :: _ => false
  | c :: cs, p :: ps => c = p && charsStartWith cs ps

/-- Substring search on character lists. -/
def charsContain (s pat : List Char) : Bool :=
  if charsStartWith s pat then true
  else
    match s with
    | [] => false
    | _ :: cs => charsContain cs pat

/-- JavaScript `String.prototype.includes`: substring containment test. -/
def strIncludes (s pat : String) : Bool := charsContain s.data pat.data

/-- JavaScript `String.prototype.toLowerCase` on the ASCII strings used by
the interactivity heuristic and variant values. -/
def jsToLower (s : String) : String := String.mk (s.data.map Char.toLower)

/-- `'    '.repeat(n)` -/
def spaces (n : ℕ) : String := String.join (List.replicate n "    ")

/-- Append a string to the last element of a nonempty list
(`lines[lines.length - 1] += suffix`). -/
def appendToLast (suffix : String) : List String → List String
  | [] => []
  | [l] => [l ++ suffix]
  | l :: ls => l :: appendToLast suffix ls

/-! ## Data model (`src/figma/types.ts`, `src/core/schemas.ts`) -/

/-- `FigmaColor`: RGBA with channels in `[0,1]`. -/
structure FigmaColor where
  r : ℚ
  g : ℚ
  b : ℚ
  a : ℚ := 1
deriving Repr, DecidableEq

/-- `FigmaVariableAlias`/`boundVariables` on a fill: optional reference to a
design variable (`fill.boundVariables?.color?.id`). -/
structure BoundVariables where
  color : Option String := none
deriving Repr, DecidableEq

/-- A paint entry.  The source discriminates fills by their `type` string
(`'SOLID'`, `'GRADIENT_*'`, …), so the embedding keeps the duck-typed shape:
a `type` tag plus the fields each branch reads (absent fields default). -/
structure FigmaFill where
  type : String
  color : FigmaColor := ⟨0, 0, 0, 1⟩
  visible : Option Bool := none
  gradientStops : List (FigmaColor × ℚ) := []
  boundVariables : Option BoundVariables := none
deriving Repr, DecidableEq

/-- `FigmaTextStyle`. -/
structure FigmaTextStyle where
  fontFamily : String
  fontWeight : ℚ
  fontSize : ℚ
  textAlignHorizontal : Option String := none
deriving Repr, DecidableEq

/-- `FigmaLayoutMode = 'NONE' | 'HORIZONTAL' | 'VERTICAL'`. -/
inductive FigmaLayoutMode where
  | NONE | HORIZONTAL | VERTICAL
deriving Repr, DecidableEq

/-- `FigmaAlignItems`. -/
inductive FigmaAlignItems where
  | MIN | CENTER | MAX | BASELINE | STRETCH | SPACE_BETWEEN
deriving Repr, DecidableEq

/-- A bounding box in absolute coordinates. -/
structure BoundingBox where
  x : ℚ
  y : ℚ
  width : ℚ
  height : ℚ
deriving Repr, DecidableEq

/-- `FigmaComponentProperty`: a typed property value on an instance. -/
structure FigmaComponentProperty where
  type : String
  value : String ⊕ Bool
deriving Repr, DecidableEq

/-- The non-recursive fields of a `FigmaNode`.  `children` being absent and
being the empty array are observationally identical in every translated code
path (`node.children || []`, and an empty array is truthy but filters to
nothing), so children live in a plain list on the node itself. -/
structure NodeData where
  id : String := ""
  name : String := ""
  type : String := ""
  characters : Option String := none
  style : Option FigmaTextStyle := none
  componentId : Option String := none
  componentName : Option String := none
  visible : Option Bool := none
  layoutMode : Option FigmaLayoutMode := none
  primaryAxisAlignItems : Option FigmaAlignItems := none
  counterAxisAlignItems : Option FigmaAlignItems := none
  itemSpacing : Option ℚ := none
  paddingTop : Option ℚ := none
  paddingRight : Option ℚ := none
  paddingBottom : Option ℚ := none
  paddingLeft : Option ℚ := none
  fills : List FigmaFill := []
  strokes : List FigmaFill := []
  cornerRadius : Option ℚ := none
  opacity : Option ℚ := none
  absoluteBoundingBox : Option BoundingBox := none
  layoutSizingHorizontal : Option String := none
  layoutSizingVertical : Option String := none
  layoutPositioning : Option String := none
  clipsContent : Option Bool := none
  componentProperties : List (String × FigmaComponentProperty) := []
deriving Repr, DecidableEq

/-- `FigmaNode`: a recursive tree of `NodeData`. -/
inductive FigmaNode where
  | node (data : NodeData) (children : List FigmaNode)

def FigmaNode.data : FigmaNode → NodeData
  | .node d _ => d

def FigmaNode.children : FigmaNode → List FigmaNode
  | .node _ c => c

/-- `FigmaComponentMetadata`. -/
structure FigmaComponentMetadata where
  key : String
  name : String
  componentSetId : Option String := none
  remote : Option Bool := none
deriving Repr, DecidableEq

/-- `FigmaComponentSetMetadata`. -/
structure FigmaComponentSetMetadata where
  key : String
  name : String
deriving Repr, DecidableEq

/-! ## Token catalog and resolution results -/

structure ColorToken where
  name : String
  r : ℚ
  g : ℚ
  b : ℚ
deriving Repr, DecidableEq

structure SpacingToken where
  name : String
  value : ℚ
deriving Repr, DecidableEq

structure TypographyToken where
  name : String
  fontFamily : String
  fontWeight : ℚ
  fontSize : ℚ
deriving Repr, DecidableEq

structure CornerRadiusToken where
  name : String
  value : ℚ
deriving Repr, DecidableEq

/-- `DesignTokenDefinitions` / `TokenConfiguration`: the four ordered token
collections. -/
structure DesignTokenDefinitions where
  colors : List ColorToken := []
  spacing : List SpacingToken := []
  typography : List TypographyToken := []
  cornerRadius : List CornerRadiusToken := []
deriving Repr, DecidableEq

/-- `TokenResolutionResult<T>`: success with a token and the emitted
reference (`swiftUIValue`), or failure with a raw value, a guidance message
and ranked closest matches. -/
inductive TokenResolution (T : Type) where
  | success (token : T) (swiftUIValue : String)
  | failure (rawValue : String) (message : String)
      (closestMatches : List (String × String))
deriving Repr, DecidableEq

def TokenResolution.isSuccess : TokenResolution T → Bool
  | .success _ _ => true
  | .failure _ _ _ => false

/-- The guidance message of a failed resolution. -/
def TokenResolution.message : TokenResolution T → Option String
  | .success _ _ => none
  | .failure _ m _ => some m

/-! ## Token resolver (`src/tokens/resolver.ts`, `src/unnamed/part_001`) -/

/-- `SPACING_TOLERANCE = 2` (pixels). -/
def SPACING_TOLERANCE : ℚ := 2

/-- `COLOR_TOLERANCE = 0.05` (0-1 range). -/
def COLOR_TOLERANCE : ℚ := 5/100

/-- `FONT_SIZE_TOLERANCE = 1` (points). -/
def FONT_SIZE_TOLERANCE : ℚ := 1

/-- `findClosestSpacing`: linear scan keeping the entry with the strictly
smallest absolute difference (ties keep the earlier entry, because the update
uses `<`). -/
def findClosestSpacing (spacing : List SpacingToken) (value : ℚ) :
    Option SpacingToken :=
  spacing.foldl
    (fun best token =>
      match best with
      | none => some token
      | some b =>
        if |token.value - value| < |b.value - value| then some token else best)
    none

/-- `getClosestSpacingMatches`: stable sort by absolute difference, take
`count`. -/
def getClosestSpacingMatches (spacing : List SpacingToken) (value : ℚ)
    (count : ℕ) : List SpacingToken :=
  (spacing.mergeSort (fun a b => |a.value - value| ≤ |b.value - value|)).take
    count

/-- `resolveSpacing`. -/
def resolveSpacing (defs : DesignTokenDefinitions) (pixelValue : ℚ) :
    TokenResolution SpacingToken :=
  match findClosestSpacing defs.spacing pixelValue with
  | some m =>
    if |m.value - pixelValue| ≤ SPACING_TOLERANCE then
      .success m m.name
    else
      .failure (numToStr pixelValue ++ "px")
        ("⚠️ No DS spacing token found for " ++ numToStr pixelValue ++ "px.")
        ((getClosestSpacingMatches defs.spacing pixelValue 2).map
          (fun t => (t.name, numToStr t.value ++ "px")))
  | none =>
    .failure (numToStr pixelValue ++ "px")
      ("⚠️ No DS spacing token found for " ++ numToStr pixelValue ++ "px.")
      ((getClosestSpacingMatches defs.spacing pixelValue 2).map
        (fun t => (t.name, numToStr t.value ++ "px")))

/-- Squared Euclidean RGB distance.  The source compares
`Math.sqrt` of these squares; square root is strictly monotone on
nonnegative reals, so the comparator induces the identical ordering. -/
def colorDist2 (a : ColorToken) (c : FigmaColor) : ℚ :=
  (a.r - c.r) ^ 2 + (a.g - c.g) ^ 2 + (a.b - c.b) ^ 2

/-- `getClosestColorMatches`: stable sort by Euclidean RGB distance, take
`count`. -/
def getClosestColorMatches (colors : List ColorToken) (c : FigmaColor)
    (count : ℕ) : List ColorToken :=
  (colors.mergeSort (fun a b => colorDist2 a c ≤ colorDist2 b c)).take count

/-- `colorToHex`: 8-bit-per-channel lowercase hex with `Math.round`. -/
def colorToHexRGB (r g b : ℚ) : String :=
  let toHexB := fun (n : ℚ) => padStart2 (intToHex (jsRound (n * 255)))
  "#" ++ toHexB r ++ toHexB g ++ toHexB b

def colorToHex (c : FigmaColor) : String := colorToHexRGB c.r c.g c.b

def colorTokenToHex (t : ColorToken) : String := colorToHexRGB t.r t.g t.b

/-- Per-channel closeness used by `resolveColor`. -/
def colorClose (t : ColorToken) (c : FigmaColor) : Bool :=
  |t.r - c.r| ≤ COLOR_TOLERANCE ∧ |t.g - c.g| ≤ COLOR_TOLERANCE ∧
    |t.b - c.b| ≤ COLOR_TOLERANCE

/-- `resolveColor`. -/
def resolveColor (defs : DesignTokenDefinitions) (c : FigmaColor) :
    TokenResolution ColorToken :=
  match defs.colors.find? (fun t => colorClose t c) with
  | some m => .success m m.name
  | none =>
    .failure (colorToHex c)
      ("⚠️ No DS color token found for " ++ colorToHex c ++ ".")
      ((getClosestColorMatches defs.colors c 2).map
        (fun t => (t.name, colorTokenToHex t)))

/-- `resolveColorWithBinding` (`src/unnamed/part_001`), with the
caller-supplied `variableMapping` (`setVariableMapping`) passed explicitly as
an association list since `Map.get` is pure lookup.  The looked-up name is
guarded by JavaScript truthiness (`if (tokenName)`), so an id mapped to the
empty string takes the not-mapped failure branch exactly like a missing
entry. -/
def resolveColorWithBinding (defs : DesignTokenDefinitions)
    (variableMapping : List (String × String)) (fill : FigmaFill) :
    TokenResolution ColorToken :=
  match fill.boundVariables with
  | some bv =>
    match bv.color with
    | some variableId =>
      let tokenName := variableMapping.lookup variableId
      if strTruthy tokenName then
        let name := tokenName.getD ""
        match defs.colors.find? (fun t => t.name = name) with
        | some token => .success token token.name
        | none =>
          .success ⟨name, fill.color.r, fill.color.g, fill.color.b⟩ name
      else
        .failure (colorToHex fill.color)
          ("⚠️ Variable " ++ variableId ++
            " not mapped. Add to variable_mapping.json.")
          ((getClosestColorMatches defs.colors fill.color 2).map
            (fun t => (t.name, colorTokenToHex t)))
    | none => resolveColor defs fill.color
  | none => resolveColor defs fill.color

/-- `getClosestTypographyMatches`: stable sort by
`|Δsize| + |Δweight|/100`. -/
def getClosestTypographyMatches (typo : List TypographyToken)
    (style : FigmaTextStyle) (count : ℕ) : List TypographyToken :=
  (typo.mergeSort (fun a b =>
    |a.fontSize - style.fontSize| + |a.fontWeight - style.fontWeight| / 100 ≤
      |b.fontSize - style.fontSize| +
        |b.fontWeight - style.fontWeight| / 100)).take count

/-- `resolveTypography`. -/
def resolveTypography (defs : DesignTokenDefinitions)
    (style : FigmaTextStyle) : TokenResolution TypographyToken :=
  match defs.typography.find? (fun t =>
      |t.fontSize - style.fontSize| ≤ FONT_SIZE_TOLERANCE ∧
        t.fontWeight = style.fontWeight) with
  | some m => .success m (".font(" ++ m.name ++ ")")
  | none =>
    .failure
      (style.fontFamily ++ " " ++ numToStr style.fontWeight ++ " " ++
        numToStr style.fontSize ++ "pt")
      ("⚠️ No DS typography token found for " ++ numToStr style.fontSize ++
        "pt weight " ++ numToStr style.fontWeight ++ ".")
      ((getClosestTypographyMatches defs.typography style 2).map
        (fun t =>
          (t.name,
            numToStr t.fontSize ++ "pt weight " ++ numToStr t.fontWeight)))

/-- `getClosestRadiusMatches`: entries with value `≥ 9999` (the
"fully rounded" sentinel) are excluded before ranking. -/
def getClosestRadiusMatches (radii : List CornerRadiusToken) (value : ℚ)
    (count : ℕ) : List CornerRadiusToken :=
  ((radii.filter (fun t => t.value < 9999)).mergeSort
    (fun a b => |a.value - value| ≤ |b.value - value|)).take count

/-- `resolveCornerRadius`: note the success side uses `find` — the first
entry in catalog order within tolerance — not the closest entry. -/
def resolveCornerRadius (defs : DesignTokenDefinitions) (pixelValue : ℚ) :
    TokenResolution CornerRadiusToken :=
  match defs.cornerRadius.find?
      (fun t => |t.value - pixelValue| ≤ SPACING_TOLERANCE) with
  | some m => .success m m.name
  | none =>
    .failure (numToStr pixelValue ++ "px")
      ("⚠️ No DS radius token found for " ++ numToStr pixelValue ++ "px.")
      ((getClosestRadiusMatches defs.cornerRadius pixelValue 2).map
        (fun t => (t.name, numToStr t.value ++ "px")))

/-! ## Translation context and registry (`src/translator/registry.ts`) -/

/-- `TranslationContext`.  The source bundles the registry and the token
resolver into the context; in the embedding those are threaded as explicit
parameters (`recur`, `defs`), and the metadata dictionaries are association
lists (an absent dictionary and an empty one are observationally identical:
every access is a guarded lookup). -/
structure TranslationContext where
  depth : ℕ := 0
  indentionLevel : ℕ := 0
  components : List (String × FigmaComponentMetadata) := []
  componentSets : List (String × FigmaComponentSetMetadata) := []

/-- A registered translator: the `ComponentTranslator` capability pair. -/
structure Translator where
  canHandle : FigmaNode → TranslationContext → Bool
  translate : FigmaNode → TranslationContext → String

/-- `TranslatorRegistry` state: registered translators in registration order
plus an optional fallback. -/
structure TranslatorRegistry where
  translators : List Translator
  fallbackTranslator : Option Translator := none

/-- `TranslatorRegistry.translate`: first `canHandle` match in registration
order wins; otherwise the fallback; otherwise an inline warning comment. -/
def registryTranslate (reg : TranslatorRegistry) (node : FigmaNode)
    (ctx : TranslationContext) : String :=
  match reg.translators.find? (fun t => t.canHandle node ctx) with
  | some t => t.translate node ctx
  | none =>
    match reg.fallbackTranslator with
    | some f => f.translate node ctx
    | none =>
      "// Warning: No translator found for node type: " ++ node.data.type ++
        " (" ++ node.data.name ++ ")"

/-! ## SwiftUI frame translator (`src/unnamed/part_006`, second revision —
the one handling absolute children, which the repository wires in). -/

/-- `FrameTranslator.getStackType`. -/
def getStackType (node : FigmaNode) : String :=
  match node.data.layoutMode with
  | some .HORIZONTAL => "HStack"
  | some .VERTICAL => "VStack"
  | some .NONE => "ZStack"
  | none => "VStack"

/-- `FrameTranslator.mapAlignment`. -/
def mapAlignment (align : Option FigmaAlignItems) (stackType : String) :
    String :=
  if stackType = "ZStack" then ".center"
  else
    match align with
    | some .MIN => if stackType = "VStack" then ".leading" else ".top"
    | some .CENTER => ".center"
    | some .MAX => if stackType = "VStack" then ".trailing" else ".bottom"
    | some .BASELINE =>
      if stackType = "HStack" then ".firstTextBaseline" else ".center"
    | _ => if stackType = "VStack" then ".leading" else ".center"

/-- `FrameTranslator.getAlignment`: a `VStack` reads the cross-axis enum,
any other stack reads the primary-axis enum. -/
def getAlignment (node : FigmaNode) (stackType : String) : String :=
  mapAlignment
    (if stackType = "VStack" then node.data.counterAxisAlignItems
     else node.data.primaryAxisAlignItems)
    stackType

/-- `FrameTranslator.buildFrameSizingModifier`. -/
def buildFrameSizingModifier (node : FigmaNode) : Option String :=
  let parts :=
    (if node.data.layoutSizingHorizontal = some "FILL" then
      ["maxWidth: .infinity"] else []) ++
    (if node.data.layoutSizingVertical = some "FILL" then
      ["maxHeight: .infinity"] else [])
  if parts.isEmpty then none
  else some (".frame(" ++ String.intercalate ", " parts ++ ")")

/-- One `edges.push` entry of `buildPaddingModifier` (pushed only when the
padding value is truthy). -/
def paddingEdge (label : String) (x : Option ℚ) : List String :=
  if numTruthy x then [label ++ ": " ++ numToStr (x.getD 0)] else []

/-- `FrameTranslator.buildPaddingModifier`.  All-sides-equal compares with
JavaScript `===` (so two `undefined` sides are equal) and additionally
requires a truthy `paddingTop`. -/
def buildPaddingModifier (defs : DesignTokenDefinitions) (node : FigmaNode) :
    Option String :=
  let pT := node.data.paddingTop
  let pB := node.data.paddingBottom
  let pL := node.data.paddingLeft
  let pR := node.data.paddingRight
  if !(numTruthy pT || numTruthy pB || numTruthy pL || numTruthy pR) then none
  else if optNumEq pT pB && optNumEq pT pL && optNumEq pT pR && numTruthy pT
  then
    let v := pT.getD 0
    match resolveSpacing defs v with
    | .success _ name => some (".padding(" ++ name ++ ")")
    | .failure _ msg _ =>
      some (".padding(" ++ numToStr v ++ ") // " ++ msg)
  else
    let edges :=
      paddingEdge "top" pT ++ paddingEdge "leading" pL ++
        paddingEdge "bottom" pB ++ paddingEdge "trailing" pR
    some (".padding(EdgeInsets(" ++ String.intercalate ", " edges ++ "))")

/-- `FrameTranslator.buildBackgroundModifier`: first `SOLID` fill only. -/
def buildBackgroundModifier (defs : DesignTokenDefinitions)
    (node : FigmaNode) : Option String :=
  if node.data.fills.isEmpty then none
  else
    match node.data.fills.find? (fun f => f.type = "SOLID") with
    | none => none
    | some f =>
      match resolveColor defs f.color with
      | .success _ name => some (".background(" ++ name ++ ")")
      | .failure _ msg _ =>
        some (".background(Color(red: " ++ toFixed 3 f.color.r ++
          ", green: " ++ toFixed 3 f.color.g ++ ", blue: " ++
          toFixed 3 f.color.b ++ ")) // " ++ msg)

/-- `FrameTranslator.buildCornerRadiusModifier` (a zero radius is falsy). -/
def buildCornerRadiusModifier (defs : DesignTokenDefinitions)
    (node : FigmaNode) : Option String :=
  if !numTruthy node.data.cornerRadius then none
  else
    let v := node.data.cornerRadius.getD 0
    match resolveCornerRadius defs v with
    | .success _ name => some (".cornerRadius(" ++ name ++ ")")
    | .failure _ msg _ =>
      some (".cornerRadius(" ++ numToStr v ++ ") // " ++ msg)

/-- `FrameTranslator.buildModifiers`: fixed order — sizing, padding,
background, corner radius, clipping, opacity. -/
def frameBuildModifiers (defs : DesignTokenDefinitions) (node : FigmaNode) :
    List String :=
  (buildFrameSizingModifier node).toList ++
    (buildPaddingModifier defs node).toList ++
    (buildBackgroundModifier defs node).toList ++
    (buildCornerRadiusModifier defs node).toList ++
    (if node.data.clipsContent = some true then [".clipped()"] else []) ++
    (match node.data.opacity with
     | some v => if v < 1 then [".opacity(" ++ toFixed 2 v ++ ")"] else []
     | none => [])

/-- `FrameTranslator.wrapChildWithSizing`.  The source splits the child code
on newlines, appends the modifier lines and rejoins; that equals appending
`"\n" ++ indent ++ "    " ++ mod` for each modifier. -/
def wrapChildWithSizing (childCode : String) (child : FigmaNode)
    (indent : String) : String :=
  let sizingModifiers :=
    (if child.data.layoutSizingHorizontal = some "FILL" then
      [".frame(maxWidth: .infinity)"] else []) ++
    (if child.data.layoutSizingVertical = some "FILL" then
      [".frame(maxHeight: .infinity)"] else [])
  if sizingModifiers.isEmpty then childCode
  else
    childCode ++
      String.join
        (sizingModifiers.map (fun m => "\n" ++ indent ++ "    " ++ m))

/-- The flow-children loop shared by both layout translators: push each
rendered child, and push the spacer line after it exactly when space-between
is active and the child is not the last one. -/
def spacedChildren (useSpaceBetween : Bool) (render : FigmaNode → String)
    (spacerLine : String) : List FigmaNode → List String
  | [] => []
  | [c] => [render c]
  | c :: c' :: rest =>
    render c :: ((if useSpaceBetween then [spacerLine] else []) ++
      spacedChildren useSpaceBetween render spacerLine (c' :: rest))

/-- Whether an auto-laid-out container with absolute children must be
wrapped in an outer free-positioning container (shared by the SwiftUI and
Compose layout translators, which compute it identically). -/
def layoutNeedsWrapper (node : FigmaNode) : Bool :=
  (node.data.layoutMode = some FigmaLayoutMode.VERTICAL ∨
    node.data.layoutMode = some FigmaLayoutMode.HORIZONTAL) ∧
  (node.children.filter
    (fun c => c.data.layoutPositioning = some "ABSOLUTE")).length > 0

/-- The indentation of child lines (one deeper inside a wrapper). -/
def layoutEffChildIndent (node : FigmaNode) (ctx : TranslationContext) :
    String :=
  if layoutNeedsWrapper node then spaces (ctx.indentionLevel + 2)
  else spaces (ctx.indentionLevel + 1)

/-- The context flow children are translated in. -/
def layoutChildCtx (node : FigmaNode) (ctx : TranslationContext) :
    TranslationContext :=
  { ctx with depth := ctx.depth + 1,
             indentionLevel :=
               ctx.indentionLevel + (if layoutNeedsWrapper node then 2 else 1) }

/-- `FrameTranslator.translate` as the list of strings pushed onto `lines`
(the returned string is their `join('\n')`).  `recur` stands for
`context.registry.translate`, the recursive dispatch on children. -/
def frameTranslateLines (defs : DesignTokenDefinitions)
    (recur : FigmaNode → TranslationContext → String) (node : FigmaNode)
    (ctx : TranslationContext) : List String :=
  let indent := spaces ctx.indentionLevel
  let childIndent := spaces (ctx.indentionLevel + 1)
  let allChildren := node.children
  let flowChildren :=
    allChildren.filter (fun c => c.data.layoutPositioning ≠ some "ABSOLUTE")
  let absoluteChildren :=
    allChildren.filter (fun c => c.data.layoutPositioning = some "ABSOLUTE")
  let stackType := getStackType node
  let needsWrapper : Bool := layoutNeedsWrapper node
  let effectiveIndent := if needsWrapper then childIndent else indent
  let effectiveChildIndent := layoutEffChildIndent node ctx
  let spacingInfo := node.data.itemSpacing.map
    (fun v => (v, resolveSpacing defs v))
  let warnLines :=
    match spacingInfo with
    | some (_, .failure _ msg cms) =>
      [effectiveIndent ++ "// " ++ msg] ++
        (if cms.length ≠ 0 then
          [effectiveIndent ++ "// Closest: " ++
            String.intercalate ", "
              (cms.map (fun m => m.1 ++ " (" ++ m.2 ++ ")"))]
         else [])
    | _ => []
  let spacingParam :=
    match spacingInfo with
    | none => ""
    | some (_, .success _ name) => ", spacing: " ++ name
    | some (v, .failure _ _ _) => ", spacing: " ++ numToStr v
  let alignment := getAlignment node stackType
  let openLine :=
    effectiveIndent ++ stackType ++ "(alignment: " ++ alignment ++
      spacingParam ++ ") \x7b"
  let childCtx : TranslationContext := layoutChildCtx node ctx
  let useSpaceBetween : Bool :=
    node.data.primaryAxisAlignItems = some .SPACE_BETWEEN
  let childLines :=
    spacedChildren useSpaceBetween
      (fun c => wrapChildWithSizing (recur c childCtx) c effectiveChildIndent)
      (effectiveChildIndent ++ "Spacer()") flowChildren
  let absLines :=
    if needsWrapper then
      let absCtx : TranslationContext :=
        { ctx with depth := ctx.depth + 1,
                   indentionLevel := ctx.indentionLevel + 1 }
      absoluteChildren.map (fun c =>
        let childCode := recur c absCtx
        let offsetModifiers :=
          match c.data.absoluteBoundingBox, node.data.absoluteBoundingBox with
          | some cb, some nb =>
            let rX := (jsRound ((cb.x - nb.x) * 10) : ℚ) / 10
            let rY := (jsRound ((cb.y - nb.y) * 10) : ℚ) / 10
            "\n" ++ childIndent ++ "    .offset(x: " ++ numToStr rX ++
              ", y: " ++ numToStr rY ++ ")"
          | _, _ => ""
        childCode ++ offsetModifiers) ++ [indent ++ "\x7d"]
    else []
  let modifiers := frameBuildModifiers defs node
  appendToLast (" // " ++ node.data.name)
    ((if needsWrapper then [indent ++ "ZStack(alignment: .topLeading) \x7b"]
      else []) ++
      warnLines ++ [openLine] ++ childLines ++ [effectiveIndent ++ "\x7d"] ++
      absLines ++ modifiers.map (fun m => indent ++ m))

/-- `FrameTranslator.translate`. -/
def frameTranslate (defs : DesignTokenDefinitions)
    (recur : FigmaNode → TranslationContext → String) (node : FigmaNode)
    (ctx : TranslationContext) : String :=
  String.intercalate "\n" (frameTranslateLines defs recur node ctx)

/-! ## SwiftUI text translator (`src/unnamed/part_006`) -/

/-- The two global replaces of the text translator (double every backslash,
then put a backslash before every double quote), applied per character —
the sequential replaces touch disjoint characters, so this is the same
string. -/
def escChar (c : Char) : List Char :=
  if c = '\\' then ['\\', '\\']
  else if c = '"' then ['\\', '"']
  else [c]

/-- Escape backslashes, then double quotes. -/
def escapeText (s : String) : String := String.mk (s.data.flatMap escChar)

/-- `TextTranslator.mapFontWeight`: nine weight buckets, upper bounds
inclusive. -/
def mapFontWeight (weight : ℚ) : String :=
  if weight ≤ 100 then ".ultraLight"
  else if weight ≤ 200 then ".thin"
  else if weight ≤ 300 then ".light"
  else if weight ≤ 400 then ".regular"
  else if weight ≤ 500 then ".medium"
  else if weight ≤ 600 then ".semibold"
  else if weight ≤ 700 then ".bold"
  else if weight ≤ 800 then ".heavy"
  else ".black"

/-- `TextTranslator.getTextColor`. -/
def getTextColor (defs : DesignTokenDefinitions) (node : FigmaNode) :
    Option String :=
  if node.data.fills.isEmpty then none
  else
    match node.data.fills.find? (fun f => f.type = "SOLID") with
    | none => none
    | some f =>
      match resolveColor defs f.color with
      | .success _ name => some (".foregroundColor(" ++ name ++ ")")
      | .failure _ msg _ =>
        some (".foregroundColor(Color(red: " ++ toFixed 3 f.color.r ++
          ", green: " ++ toFixed 3 f.color.g ++ ", blue: " ++
          toFixed 3 f.color.b ++ ")) // " ++ msg)

/-- `TextTranslator.getTextAlignment`. -/
def getTextAlignment (node : FigmaNode) : Option String :=
  match node.data.style with
  | none => none
  | some st =>
    match st.textAlignHorizontal with
    | some "LEFT" => some ".leading"
    | some "CENTER" => some ".center"
    | some "RIGHT" => some ".trailing"
    | _ => none

/-- `TextTranslator.translate` as pushed lines. -/
def textTranslateLines (defs : DesignTokenDefinitions) (node : FigmaNode)
    (ctx : TranslationContext) : List String :=
  let indent := spaces ctx.indentionLevel
  let text := node.data.characters.getD ""
  let safeText := escapeText text
  [indent ++ "Text(\"" ++ safeText ++ "\")"] ++
    (match node.data.style with
     | none => []
     | some st =>
       match resolveTypography defs st with
       | .success _ v => [indent ++ "    " ++ v]
       | .failure _ msg _ =>
         [indent ++ "    // " ++ msg,
          indent ++ "    .font(.system(size: " ++ numToStr st.fontSize ++
            ", weight: " ++ mapFontWeight st.fontWeight ++ "))"]) ++
    (match getTextColor defs node with
     | some s => [indent ++ "    " ++ s]
     | none => []) ++
    (match getTextAlignment node with
     | some a => [indent ++ "    .multilineTextAlignment(" ++ a ++ ")"]
     | none => [])

/-- `TextTranslator.translate`. -/
def textTranslate (defs : DesignTokenDefinitions) (node : FigmaNode)
    (ctx : TranslationContext) : String :=
  String.intercalate "\n" (textTranslateLines defs node ctx)

/-! ## Compose layout translator (`src/translator/compose/primitives.ts`) -/

/-- `ComposeLayoutTranslator.getLayoutType`. -/
def composeGetLayoutType (node : FigmaNode) : String :=
  match node.data.layoutMode with
  | some .HORIZONTAL => "Row"
  | some .VERTICAL => "Column"
  | _ => "Box"

/-- `ComposeLayoutTranslator.mapAlignment`. -/
def composeMapAlignment (node : FigmaNode) (layoutType : String) :
    Option String :=
  let alignItems :=
    if layoutType = "Column" then node.data.counterAxisAlignItems
    else node.data.primaryAxisAlignItems
  if layoutType = "Box" then some "Alignment.TopStart"
  else
    match alignItems with
    | some .MIN =>
      some (if layoutType = "Column" then "Alignment.Start" else "Alignment.Top")
    | some .CENTER =>
      some (if layoutType = "Column" then "Alignment.CenterHorizontally"
            else "Alignment.CenterVertically")
    | some .MAX =>
      some (if layoutType = "Column" then "Alignment.End"
            else "Alignment.Bottom")
    | _ => none

/-- `ComposeLayoutTranslator.getArrangementAndAlignment`. -/
def composeGetArrangementAndAlignment (node : FigmaNode)
    (layoutType : String)
    (spacingInfo : Option (ℚ × TokenResolution SpacingToken)) : String :=
  let arrangementParts :=
    if layoutType = "Row" ∨ layoutType = "Column" then
      let arrangementProp :=
        if layoutType = "Row" then "horizontalArrangement"
        else "verticalArrangement"
      if node.data.primaryAxisAlignItems = some .SPACE_BETWEEN then
        [arrangementProp ++ " = Arrangement.SpaceBetween"]
      else
        match spacingInfo with
        | some (_, .success _ name) =>
          [arrangementProp ++ " = Arrangement.spacedBy(" ++ name ++ ".dp)"]
        | some (v, .failure _ msg _) =>
          [arrangementProp ++ " = Arrangement.spacedBy(" ++ numToStr v ++
            ".dp) // " ++ msg]
        | none => []
    else []
  let alignmentParts :=
    match composeMapAlignment node layoutType with
    | some alignment =>
      if layoutType ≠ "Box" then
        [(if layoutType = "Row" then "verticalAlignment"
          else "horizontalAlignment") ++ " = " ++ alignment]
      else []
    | none => []
  String.intercalate ",\n        " (arrangementParts ++ alignmentParts)

/-- `ComposeLayoutTranslator.buildPaddingModifier`. -/
def composePaddingEdge (label : String) (x : Option ℚ) : List String :=
  if numTruthy x then [label ++ " = " ++ numToStr (x.getD 0) ++ ".dp"]
  else []

def composeBuildPaddingModifier (defs : DesignTokenDefinitions)
    (node : FigmaNode) : Option String :=
  let pT := node.data.paddingTop
  let pB := node.data.paddingBottom
  let pL := node.data.paddingLeft
  let pR := node.data.paddingRight
  if !(numTruthy pT || numTruthy pB || numTruthy pL || numTruthy pR) then none
  else if optNumEq pT pB && optNumEq pT pL && optNumEq pT pR && numTruthy pT
  then
    let v := pT.getD 0
    match resolveSpacing defs v with
    | .success _ name => some (".padding(" ++ name ++ ".dp)")
    | .failure _ msg _ =>
      some (".padding(" ++ numToStr v ++ ".dp) // " ++ msg)
  else
    let edges :=
      composePaddingEdge "top" pT ++ composePaddingEdge "start" pL ++
        composePaddingEdge "bottom" pB ++ composePaddingEdge "end" pR
    some (".padding(" ++ String.intercalate ", " edges ++ ")")

/-- Compose hex color literal `Color(0xFF……)`. -/
def composeColorLiteral (c : FigmaColor) : String :=
  let toHexB := fun (n : ℚ) => padStart2 (intToHex (jsRound (n * 255)))
  "Color(0xFF" ++ toHexB c.r ++ toHexB c.g ++ toHexB c.b ++ ")"

/-- `ComposeLayoutTranslator.buildBackgroundModifier`. -/
def composeBuildBackgroundModifier (defs : DesignTokenDefinitions)
    (node : FigmaNode) : Option String :=
  if node.data.fills.isEmpty then none
  else
    match node.data.fills.find? (fun f => f.type = "SOLID") with
    | none => none
    | some f =>
      match resolveColor defs f.color with
      | .success _ name => some (".background(" ++ name ++ ")")
      | .failure _ msg _ =>
        some (".background(" ++ composeColorLiteral f.color ++ ") // " ++ msg)

/-- `ComposeLayoutTranslator.buildClipModifier`. -/
def composeBuildClipModifier (defs : DesignTokenDefinitions)
    (node : FigmaNode) : Option String :=
  if !numTruthy node.data.cornerRadius ∧ ¬(node.data.clipsContent = some true)
  then none
  else if numTruthy node.data.cornerRadius then
    let v := node.data.cornerRadius.getD 0
    match resolveCornerRadius defs v with
    | .success _ name => some (".clip(RoundedCornerShape(" ++ name ++ ".dp))")
    | .failure _ msg _ =>
      some (".clip(RoundedCornerShape(" ++ numToStr v ++ ".dp)) // " ++ msg)
  else if node.data.clipsContent = some true then
    some ".clip(RectangleShape)"
  else none

/-- `ComposeLayoutTranslator.buildModifiers`: starts from `'Modifier'` and
returns the empty list when nothing was added. -/
def composeBuildModifiers (defs : DesignTokenDefinitions) (node : FigmaNode) :
    List String :=
  let mods :=
    ["Modifier"] ++
      (if node.data.layoutSizingHorizontal = some "FILL" then
        [".fillMaxWidth()"] else []) ++
      (if node.data.layoutSizingVertical = some "FILL" then
        [".fillMaxHeight()"] else []) ++
      (composeBuildPaddingModifier defs node).toList ++
      (composeBuildBackgroundModifier defs node).toList ++
      (composeBuildClipModifier defs node).toList ++
      (match node.data.opacity with
       | some v => if v < 1 then [".alpha(" ++ toFixed 2 v ++ "f)"] else []
       | none => [])
  if mods.length > 1 then mods else []

/-- `ComposeLayoutTranslator.wrapChildWithSizing`. -/
def composeWrapChildWithSizing (childCode : String) (child : FigmaNode)
    (indent : String) : String :=
  let sizingModifiers :=
    (if child.data.layoutSizingHorizontal = some "FILL" then
      [".fillMaxWidth()"] else []) ++
    (if child.data.layoutSizingVertical = some "FILL" then
      [".fillMaxHeight()"] else [])
  if sizingModifiers.isEmpty then childCode
  else
    childCode ++
      String.join
        (sizingModifiers.map (fun m => "\n" ++ indent ++ "    " ++ m))

/-- `ComposeLayoutTranslator.translate` as pushed lines. -/
def composeTranslateLines (defs : DesignTokenDefinitions)
    (recur : FigmaNode → TranslationContext → String) (node : FigmaNode)
    (ctx : TranslationContext) : List String :=
  let indent := spaces ctx.indentionLevel
  let childIndent := spaces (ctx.indentionLevel + 1)
  let allChildren := node.children
  let flowChildren :=
    allChildren.filter (fun c => c.data.layoutPositioning ≠ some "ABSOLUTE")
  let absoluteChildren :=
    allChildren.filter (fun c => c.data.layoutPositioning = some "ABSOLUTE")
  let layoutType := composeGetLayoutType node
  let needsWrapper : Bool := layoutNeedsWrapper node
  let effectiveIndent := if needsWrapper then childIndent else indent
  let effectiveChildIndent := layoutEffChildIndent node ctx
  let modifiers := composeBuildModifiers defs node
  let modifierString :=
    if modifiers.length > 0 then
      "modifier = " ++
        String.intercalate ("\n" ++ effectiveIndent ++ "    ") modifiers
    else ""
  let spacingInfo := node.data.itemSpacing.map
    (fun v => (v, resolveSpacing defs v))
  let arrangementAndAlignment :=
    composeGetArrangementAndAlignment node layoutType spacingInfo
  let params :=
    String.intercalate (",\n" ++ effectiveIndent ++ "    ")
      (([arrangementAndAlignment, modifierString].filter (· ≠ "")))
  let openLines :=
    if params ≠ "" then
      [effectiveIndent ++ layoutType ++ "(",
       effectiveIndent ++ "    " ++ params,
       effectiveIndent ++ ") \x7b"]
    else [effectiveIndent ++ layoutType ++ " \x7b"]
  let childCtx : TranslationContext := layoutChildCtx node ctx
  let useSpaceBetween : Bool :=
    node.data.primaryAxisAlignItems = some .SPACE_BETWEEN
  let childLines :=
    spacedChildren useSpaceBetween
      (fun c =>
        composeWrapChildWithSizing (recur c childCtx) c effectiveChildIndent)
      (effectiveChildIndent ++ "Spacer()") flowChildren
  let absLines :=
    if needsWrapper then
      let absCtx : TranslationContext :=
        { ctx with depth := ctx.depth + 1,
                   indentionLevel := ctx.indentionLevel + 1 }
      absoluteChildren.map (fun c =>
        let childCode := recur c absCtx
        let offsetModifiers :=
          match c.data.absoluteBoundingBox, node.data.absoluteBoundingBox with
          | some cb, some nb =>
            let rX := (jsRound ((cb.x - nb.x) * 10) : ℚ) / 10
            let rY := (jsRound ((cb.y - nb.y) * 10) : ℚ) / 10
            "\n" ++ childIndent ++ "    .offset(x = " ++ numToStr rX ++
              ".dp, y = " ++ numToStr rY ++ ".dp)"
          | _, _ => ""
        childCode ++ offsetModifiers) ++ [indent ++ "\x7d"]
    else []
  appendToLast (" // " ++ node.data.name)
    ((if needsWrapper then
        [indent ++ "Box(", childIndent ++ "contentAlignment = Alignment.TopStart",
         indent ++ ") \x7b"]
      else []) ++
      openLines ++ childLines ++ [effectiveIndent ++ "\x7d"] ++ absLines)

/-- `ComposeLayoutTranslator.translate`. -/
def composeTranslate (defs : DesignTokenDefinitions)
    (recur : FigmaNode → TranslationContext → String) (node : FigmaNode)
    (ctx : TranslationContext) : String :=
  String.intercalate "\n" (composeTranslateLines defs recur node ctx)

/-! ## Configurable component translator (`src/unnamed/part_007`) -/

/-- `ComponentDefinition` with the identification fields the translator
reads (`figmaKey` / `figmaComponentSetKey` / legacy `figmaId`), all optional
as in the configuration schema. -/
structure ComponentDefinition where
  figmaId : Option String := none
  figmaKey : Option String := none
  figmaComponentSetKey : Option String := none
  swiftView : String := ""
  sourceFile : Option String := none
  params : Option (List (String × String)) := none
deriving Repr, DecidableEq

/-- `ComponentConfiguration` with the catalog-wide `handoffMode` flag. -/
structure ComponentConfiguration where
  handoffMode : Option Bool := none
  components : List ComponentDefinition := []
deriving Repr, DecidableEq

/-- `get handoffMode(): boolean { return this.config.handoffMode ?? true }` -/
def handoffModeEff (cfg : ComponentConfiguration) : Bool :=
  cfg.handoffMode.getD true

/-- JavaScript `===` on two possibly-`undefined` strings
(`undefined === undefined` is true). -/
def optStrEq (a b : Option String) : Bool :=
  match a, b with
  | none, none => true
  | some x, some y => x = y
  | _, _ => false

/-- The resolved lookups shared by the five priority tiers of
`findDefinition`. -/
def resolvedComponentMetadata (node : FigmaNode)
    (components : List (String × FigmaComponentMetadata)) :
    Option FigmaComponentMetadata :=
  match node.data.componentId with
  | some cid => if cid ≠ "" then components.lookup cid else none
  | none => none

/-- Priority 1: stable component key. -/
def findDefTier1 (cfg : ComponentConfiguration) (node : FigmaNode)
    (components : List (String × FigmaComponentMetadata)) :
    Option ComponentDefinition :=
  match (resolvedComponentMetadata node components).map (·.key) with
  | some k =>
    if k ≠ "" then cfg.components.find? (fun d => d.figmaKey = some k)
    else none
  | none => none

/-- Priority 2: stable component-set key. -/
def findDefTier2 (cfg : ComponentConfiguration) (node : FigmaNode)
    (componentSets : List (String × FigmaComponentSetMetadata))
    (components : List (String × FigmaComponentMetadata)) :
    Option ComponentDefinition :=
  let componentSetId :=
    (resolvedComponentMetadata node components).bind (·.componentSetId)
  let componentSetMetadata :=
    match componentSetId with
    | some sid => if sid ≠ "" then componentSets.lookup sid else none
    | none => none
  match componentSetMetadata.map (·.key) with
  | some k =>
    if k ≠ "" then
      cfg.components.find? (fun d => d.figmaComponentSetKey = some k)
    else none
  | none => none

/-- Priority 3: the instance's `componentId` is itself a component-set id. -/
def findDefTier3 (cfg : ComponentConfiguration) (node : FigmaNode)
    (componentSets : List (String × FigmaComponentSetMetadata)) :
    Option ComponentDefinition :=
  match node.data.componentId with
  | some cid =>
    if cid ≠ "" then
      match componentSets.lookup cid with
      | some setMetadata =>
        cfg.components.find? (fun d =>
          d.figmaId = some setMetadata.name ∨ d.figmaId = some cid)
      | none => none
    else none
  | none => none

/-- Priority 4: id → component metadata → set metadata → name/id. -/
def findDefTier4 (cfg : ComponentConfiguration) (node : FigmaNode)
    (componentSets : List (String × FigmaComponentSetMetadata))
    (components : List (String × FigmaComponentMetadata)) :
    Option ComponentDefinition :=
  match node.data.componentId with
  | some cid =>
    if cid ≠ "" then
      match components.lookup cid with
      | some variantMetadata =>
        match variantMetadata.componentSetId with
        | some sid =>
          if sid ≠ "" then
            match componentSets.lookup sid with
            | some setMetadata =>
              cfg.components.find? (fun d =>
                d.figmaId = some setMetadata.name ∨ d.figmaId = some sid)
            | none => none
          else none
        | none => none
      | none => none
    else none
  | none => none

/-- Priority 5: literal `figmaId`-vs-`componentId`/display-name fallback
(JavaScript `===`, so two absent values compare equal). -/
def findDefTier5 (cfg : ComponentConfiguration) (node : FigmaNode) :
    Option ComponentDefinition :=
  let componentName :=
    if strTruthy node.data.componentName then node.data.componentName.getD ""
    else node.data.name
  cfg.components.find? (fun d =>
    optStrEq d.figmaId node.data.componentId ∨ d.figmaId = some componentName)

/-- The five tiers in priority order. -/
def findDefTiers (cfg : ComponentConfiguration) (node : FigmaNode)
    (componentSets : List (String × FigmaComponentSetMetadata))
    (components : List (String × FigmaComponentMetadata)) :
    List (Option ComponentDefinition) :=
  [findDefTier1 cfg node components,
   findDefTier2 cfg node componentSets components,
   findDefTier3 cfg node componentSets,
   findDefTier4 cfg node componentSets components,
   findDefTier5 cfg node]

/-- `ConfigurableComponentTranslator.findDefinition`: the tiers' early
returns, i.e. the first tier producing a match wins. -/
def findDefinition (cfg : ComponentConfiguration) (node : FigmaNode)
    (componentSets : List (String × FigmaComponentSetMetadata))
    (components : List (String × FigmaComponentMetadata)) :
    Option ComponentDefinition :=
  (findDefTier1 cfg node components).orElse (fun _ =>
    (findDefTier2 cfg node componentSets components).orElse (fun _ =>
      (findDefTier3 cfg node componentSets).orElse (fun _ =>
        (findDefTier4 cfg node componentSets components).orElse (fun _ =>
          findDefTier5 cfg node))))

/-- `ConfigurableComponentTranslator.canHandle`. -/
def configurableCanHandle (cfg : ComponentConfiguration) (node : FigmaNode)
    (ctx : TranslationContext) : Bool :=
  if node.data.type ≠ "INSTANCE" ∧ node.data.type ≠ "COMPONENT" then false
  else (findDefinition cfg node ctx.componentSets ctx.components).isSome

/-- The string of a component property value under JavaScript `String(x)` /
`toString()`. -/
def propValueStr : String ⊕ Bool → String
  | .inl s => s
  | .inr b => if b then "true" else "false"

/-- `ConfigurableComponentTranslator.resolveValue`. -/
def resolveValue (node : FigmaNode) (figmaProp : String) : String :=
  match node.data.componentProperties.lookup figmaProp with
  | some prop =>
    if prop.type = "BOOLEAN" then propValueStr prop.value
    else if prop.type = "TEXT" then "\"" ++ propValueStr prop.value ++ "\""
    else if prop.type = "VARIANT" then
      "." ++ jsToLower (propValueStr prop.value)
    else "/* missing */"
  | none => "/* missing */"

/-- `ConfigurableComponentTranslator.looksInteractive`. -/
def looksInteractive (definition : ComponentDefinition) (node : FigmaNode) :
    Bool :=
  let name := jsToLower (definition.swiftView ++ " " ++ node.data.name)
  ["button", "tap", "click", "link", "toggle", "switch", "checkbox",
    "radio"].any (fun pattern => strIncludes name pattern)

/-- `ConfigurableComponentTranslator.translate` as pushed lines. -/
def configurableTranslateLines (cfg : ComponentConfiguration)
    (node : FigmaNode) (ctx : TranslationContext) : List String :=
  let indent := spaces ctx.indentionLevel
  match findDefinition cfg node ctx.componentSets ctx.components with
  | none => [indent ++ "// Error: No definition found for component"]
  | some definition =>
    let headerLines :=
      if handoffModeEff cfg then
        [indent ++ "// HANDOFF: " ++ definition.swiftView ++ " from Figma"] ++
          (if strTruthy definition.sourceFile then
            [indent ++ "// Reference: " ++ definition.sourceFile.getD ""]
           else [])
      else []
    let params :=
      match definition.params with
      | some ps =>
        ps.map (fun p => p.2 ++ ": " ++ resolveValue node p.1)
      | none => []
    let paramString := String.intercalate ", " params
    let callLine := indent ++ definition.swiftView ++ "(" ++ paramString ++ ")"
    let todoLines :=
      if handoffModeEff cfg ∧ looksInteractive definition node then
        [indent ++ "    // TODO: Add action handler"]
      else []
    headerLines ++ [callLine] ++ todoLines

/-- `ConfigurableComponentTranslator.translate`. -/
def configurableTranslate (cfg : ComponentConfiguration) (node : FigmaNode)
    (ctx : TranslationContext) : String :=
  String.intercalate "\n" (configurableTranslateLines cfg node ctx)

/-! ## Component discovery merge (`src/core/schemas.ts`, discovery part) -/

/-- `DiscoveredComponent`. -/
structure DiscoveredComponent where
  setName : String
  setKey : String
  suggestedSwiftView : String
  params : List (String × String) := []
deriving Repr, DecidableEq

/-- The `ComponentDefinition` pushed for a newly discovered component. -/
def mkDiscoveredDef (d : DiscoveredComponent) : ComponentDefinition :=
  { figmaComponentSetKey := some d.setKey,
    swiftView := d.suggestedSwiftView,
    sourceFile := some ("TODO: Path to " ++ d.suggestedSwiftView ++ ".swift"),
    params := if d.params.length > 0 then some d.params else none }

/-- The `existingKeys` set: set keys of existing entries (a truthy check, so
empty keys are not collected). -/
def existingSetKeys (comps : List ComponentDefinition) : List String :=
  comps.foldl
    (fun acc c =>
      match c.figmaComponentSetKey with
      | some k => if k ≠ "" then acc ++ [k] else acc
      | none => acc)
    []

/-- One iteration of the `mergeComponents` loop over a discovered
component: empty set keys are ignored, already-present set keys are
recorded as skipped, new set keys are appended and recorded as added. -/
def mergeStep (existingKeys : List String)
    (acc : List ComponentDefinition × List String × List String)
    (disc : DiscoveredComponent) :
    List ComponentDefinition × List String × List String :=
  if disc.setKey = "" then acc
  else if disc.setKey ∈ existingKeys then
    (acc.1, acc.2.1, acc.2.2 ++ [disc.setName])
  else (acc.1 ++ [mkDiscoveredDef disc], acc.2.1 ++ [disc.setName],
    acc.2.2)

/-- `mergeComponents`: result configuration plus the `added` and `skipped`
name lists.  Note the membership test is against the initial `existingKeys`
set only, exactly as in the source. -/
def mergeComponents (existingConfig : ComponentConfiguration)
    (discovered : List DiscoveredComponent) :
    ComponentConfiguration × List String × List String :=
  let res :=
    discovered.foldl (mergeStep (existingSetKeys existingConfig.components))
      (existingConfig.components, [], [])
  (⟨existingConfig.handoffMode, res.1⟩, res.2.1, res.2.2)

/-! ## Tree pruning (`src/core/optimization.ts`) -/

/-- The computed style-hint bag of a pruned node. -/
structure PrunedStyle where
  fontFamily : Option String := none
  fontSize : Option ℚ := none
  fontWeight : Option ℚ := none
  cornerRadius : Option ℚ := none
  layoutMode : Option String := none
  typographyToken : Option String := none
deriving Repr, DecidableEq

/-- `PrunedFigmaNode`. -/
inductive PrunedNode where
  | mk (id name type : String) (characters : Option String)
      (fills strokes : List String)
      (absoluteBoundingBox : Option (ℤ × ℤ × ℤ × ℤ))
      (componentId : Option String) (style : Option PrunedStyle)
      (children : Option (List PrunedNode))

def PrunedNode.style : PrunedNode → Option PrunedStyle
  | .mk _ _ _ _ _ _ _ _ s _ => s

def PrunedNode.children : PrunedNode → Option (List PrunedNode)
  | .mk _ _ _ _ _ _ _ _ _ c => c

/-- `extractColors`: solid fills become hex strings (or
`"TokenName (hex)"` with a resolver), gradients a compact two-stop
summary; invibility-marked and other fills are dropped. -/
def extractColors (fills : List FigmaFill)
    (tokenResolver : Option DesignTokenDefinitions) : List String :=
  fills.flatMap (fun fill =>
    if fill.type = "SOLID" ∧ fill.visible ≠ some false then
      let hex := colorToHex fill.color
      match tokenResolver with
      | some defs =>
        match resolveColor defs fill.color with
        | .success token _ => [token.name ++ " (" ++ hex ++ ")"]
        | .failure _ _ _ => [hex]
      | none => [hex]
    else if fill.type.startsWith "GRADIENT" ∧ fill.visible ≠ some false then
      match fill.gradientStops.head?, fill.gradientStops.getLast? with
      | some s, some e =>
        ["Gradient(" ++ colorToHex s.1 ++ " -> " ++ colorToHex e.1 ++ ")"]
      | _, _ => []
    else [])

/-- The rendered `layoutMode` string of a node. -/
def layoutModeStr : FigmaLayoutMode → String
  | .NONE => "NONE"
  | .HORIZONTAL => "HORIZONTAL"
  | .VERTICAL => "VERTICAL"

/-- The style-hint bag computed by `pruneNodeData` for one node, provided
the guard `node.style || node.cornerRadius || node.layoutMode` passed. -/
def pruneStyleBag (d : NodeData)
    (tokenResolver : Option DesignTokenDefinitions) : PrunedStyle :=
  { fontFamily := d.style.map (·.fontFamily),
    fontSize := d.style.map (·.fontSize),
    fontWeight := d.style.map (·.fontWeight),
    typographyToken :=
      match d.style, tokenResolver with
      | some st, some defs =>
        match resolveTypography defs st with
        | .success t _ => some t.name
        | .failure _ _ _ => none
      | _, _ => none,
    cornerRadius := if numTruthy d.cornerRadius then d.cornerRadius else none,
    layoutMode :=
      match d.layoutMode with
      | some lm => if lm ≠ .NONE then some (layoutModeStr lm) else none
      | none => none }

/-- The guard deciding whether a style bag is attached:
`if (node.style || node.cornerRadius || node.layoutMode)` — note a zero
corner radius is falsy but `layoutMode: 'NONE'` is a truthy string. -/
def pruneStyleGuard (d : NodeData) : Bool :=
  d.style.isSome || numTruthy d.cornerRadius || d.layoutMode.isSome

/-- `pruneNodeData`: depth-bounded (`depth < 4`) recursive copy keeping
id/name/type, truncated text, color summaries, integer-rounded bounds,
component id, the style-hint bag, and visible children only. -/
def pruneNodeData (node : FigmaNode)
    (tokenResolver : Option DesignTokenDefinitions) (depth : ℕ) :
    PrunedNode :=
  match node with
  | .node d cs =>
    let characters :=
      match d.characters with
      | some s =>
        if s ≠ "" then
          some (if s.length > 500 then (s.take 500) ++ "..." else s)
        else none
      | none => none
    let bbox := d.absoluteBoundingBox.map (fun b =>
      (jsRound b.x, jsRound b.y, jsRound b.width, jsRound b.height))
    let style :=
      if pruneStyleGuard d then some (pruneStyleBag d tokenResolver)
      else none
    let componentId :=
      match d.componentId with
      | some cid => if cid ≠ "" then some cid else none
      | none => none
    let children :=
      if depth < 4 then
        let visibleChildren := cs.filter (fun c => c.data.visible ≠ some false)
        if visibleChildren.length > 0 then
          some (visibleChildren.attach.map (fun c =>
            pruneNodeData c.1 tokenResolver (depth + 1)))
        else none
      else none
    .mk d.id d.name d.type characters
      (extractColors d.fills tokenResolver)
      (extractColors d.strokes tokenResolver)
      bbox componentId style children
termination_by sizeOf node
decreasing_by
  simp_wf
  have h2 := List.mem_of_mem_filter c.2
  have := List.sizeOf_lt_of_mem h2
  omega

/-! ## General list helpers used by several claims -/

/-- `List.find?` characterisation: a result is the first element of the list
satisfying the predicate. -/
lemma find?_eq_some_split {α : Type} (p : α → Bool) (l : List α) (a : α) :
    l.find? p = some a ↔
      p a = true ∧ ∃ pre post, l = pre ++ a :: post ∧
        ∀ x ∈ pre, p x = false := by
  induction l with
  | nil => simp
  | cons b l ih =>
    by_cases hb : p b = true
    · simp only [List.find?_cons_of_pos _ hb]
      constructor
      · intro h
        obtain rfl := Option.some.injEq .. ▸ h
        exact ⟨hb, [], l, rfl, by simp⟩
      · rintro ⟨hpa, pre, post, heq, hpre⟩
        match pre, heq with
        | [], heq => simp_all
        | c :: pre, heq =>
          obtain ⟨rfl, -⟩ := List.cons.injEq .. ▸ heq
          have := hpre b (by simp)
          simp [hb] at this
    · simp only [List.find?_cons_of_neg _ hb, ih]
      constructor
      · rintro ⟨hpa, pre, post, rfl, hpre⟩
        refine ⟨hpa, b :: pre, post, rfl, ?_⟩
        intro x hx
        rcases List.mem_cons.mp hx with rfl | hx
        · simpa using hb
        · exact hpre x hx
      · rintro ⟨hpa, pre, post, heq, hpre⟩
        match pre, heq with
        | [], heq =>
          obtain ⟨rfl, -⟩ := List.cons.injEq .. ▸ heq
          simp [hpa] at hb
        | c :: pre, heq =>
          obtain ⟨rfl, htl⟩ := List.cons.injEq .. ▸ heq
          exact ⟨hpa, pre, post, htl, fun x hx => hpre x (by simp [hx])⟩

/-- `List.find?` returns the element at the first index whose predicate
holds. -/
lemma find?_at_first_index {α : Type} (p : α → Bool) (l : List α) (i : ℕ)
    (hi : i < l.length) (h : p (l.get ⟨i, hi⟩) = true)
    (hprev : ∀ j (hj : j < i), p (l.get ⟨j, hj.trans hi⟩) = false) :
    l.find? p = some (l.get ⟨i, hi⟩) := by
  induction l generalizing i with
  | nil => simp at hi
  | cons b l ih =>
    match i with
    | 0 => simpa using List.find?_cons_of_pos _ (by simpa using h)
    | i + 1 =>
      have hb : p b = false := by
        have := hprev 0 (Nat.succ_pos i)
        simpa using this
      rw [List.find?_cons_of_neg _ (by simp [hb])]
      exact ih i (by simpa using hi) h
        (fun j hj => hprev (j + 1) (by omega))

/-- `spacedChildren` with space-between active is exactly the rendered
children with the spacer line interspersed between adjacent pairs. -/
lemma spacedChildren_spaceBetween (render : FigmaNode → String)
    (spacer : String) (l : List FigmaNode) :
    spacedChildren true render spacer l =
      List.intersperse spacer (l.map render) := by
  induction l with
  | nil => rfl
  | cons c l ih =>
    match l with
    | [] => rfl
    | c' :: l' => simp [spacedChildren, ih, List.intersperse]

/-- `spacedChildren` without space-between emits no spacer at all. -/
lemma spacedChildren_plain (render : FigmaNode → String) (spacer : String)
    (l : List FigmaNode) :
    spacedChildren false render spacer l = l.map render := by
  induction l with
  | nil => rfl
  | cons c l ih =>
    match l with
    | [] => rfl
    | c' :: l' => simp [spacedChildren, ih]

/-! ## C1 — registry dispatch -/

/-- C1: `TranslatorRegistry.translate` always yields a string (it is a total
function): the first registered translator whose `canHandle` accepts the
node translates it; when none accepts, the designated fallback does; with no
fallback it returns the warning comment naming the unhandled node's type and
name. -/
theorem registryTranslate_dispatch :
    (∀ (reg : TranslatorRegistry) (node : FigmaNode)
        (ctx : TranslationContext) (i : ℕ) (hi : i < reg.translators.length),
        (reg.translators.get ⟨i, hi⟩).canHandle node ctx = true →
        (∀ j (hj : j < i),
          (reg.translators.get ⟨j, hj.trans hi⟩).canHandle node ctx = false) →
        registryTranslate reg node ctx =
          (reg.translators.get ⟨i, hi⟩).translate node ctx) ∧
    (∀ reg node ctx f,
        (∀ t ∈ reg.translators, t.canHandle node ctx = false) →
        reg.fallbackTranslator = some f →
        registryTranslate reg node ctx = f.translate node ctx) ∧
    (∀ reg node ctx,
        (∀ t ∈ reg.translators, t.canHandle node ctx = false) →
        reg.fallbackTranslator = none →
        registryTranslate reg node ctx =
          "// Warning: No translator found for node type: " ++
            node.data.type ++ " (" ++ node.data.name ++ ")") := by
  refine ⟨?_, ?_, ?_⟩
  · intro reg node ctx i hi h hprev
    have := find?_at_first_index (fun t => t.canHandle node ctx)
      reg.translators i hi h hprev
    simp [registryTranslate, this]
  · intro reg node ctx f hnone hf
    have : reg.translators.find? (fun t => t.canHandle node ctx) = none :=
      List.find?_eq_none.mpr (by simpa using hnone)
    simp [registryTranslate, this, hf]
  · intro reg node ctx hnone hf
    have : reg.translators.find? (fun t => t.canHandle node ctx) = none :=
      List.find?_eq_none.mpr (by simpa using hnone)
    simp [registryTranslate, this, hf]

/-- A demo node and two demo translators exercising every dispatch case. -/
def demoNode : FigmaNode := .node { type := "TEXT", name := "Hello" } []

def demoRejecting : Translator := ⟨fun _ _ => false, fun _ _ => "rejected"⟩

def demoAccepting : Translator :=
  ⟨fun n _ => n.data.type = "TEXT", fun _ _ => "accepted"⟩

/-- Witness for C1: on a registry `[rejecting, accepting]` the second
translator fires; with only rejecting translators the fallback fires; with
no fallback the warning comment is produced. -/
theorem registryTranslate_dispatch_witness :
    registryTranslate ⟨[demoRejecting, demoAccepting], none⟩ demoNode {} =
        "accepted" ∧
    registryTranslate ⟨[demoRejecting], some demoAccepting⟩ demoNode {} =
        "accepted" ∧
    registryTranslate ⟨[demoRejecting], none⟩ demoNode {} =
        "// Warning: No translator found for node type: TEXT (Hello)" := by
  refine ⟨?_, ?_, ?_⟩
  · have := registryTranslate_dispatch.1
      ⟨[demoRejecting, demoAccepting], none⟩ demoNode {} 1 (by decide)
      (by rfl)
      (fun j hj => by
        match j with
        | 0 => rfl)
    simpa using this
  · have := registryTranslate_dispatch.2.1 ⟨[demoRejecting], some demoAccepting⟩
      demoNode {} demoAccepting
      (by intro t ht; simp at ht; subst ht; rfl) rfl
    simpa using this
  · have := registryTranslate_dispatch.2.2 ⟨[demoRejecting], none⟩ demoNode {}
      (by intro t ht; simp at ht; subst ht; rfl) rfl
    simpa using this

/-! ## C4 — component identity priority -/

/-- C4: when the instance's resolved stable component key matches a
definition, `findDefinition` returns the first such definition — which is a
stable-key definition — regardless of any legacy id/name definition also in
the catalog; and in general each later priority tier is consulted only when
every earlier tier produced no match. -/
theorem findDefinition_priority :
    (∀ cfg node sets comps cid meta d,
        node.data.componentId = some cid → cid ≠ "" →
        comps.lookup cid = some meta → meta.key ≠ "" →
        cfg.components.find? (fun dd => dd.figmaKey = some meta.key) =
          some d →
        findDefinition cfg node sets comps = some d ∧
          d.figmaKey = some meta.key) ∧
    (∀ cfg node sets comps d, findDefTier1 cfg node comps = some d →
        findDefinition cfg node sets comps = some d) ∧
    (∀ cfg node sets comps d, findDefTier1 cfg node comps = none →
        findDefTier2 cfg node sets comps = some d →
        findDefinition cfg node sets comps = some d) ∧
    (∀ cfg node sets comps d, findDefTier1 cfg node comps = none →
        findDefTier2 cfg node sets comps = none →
        findDefTier3 cfg node sets = some d →
        findDefinition cfg node sets comps = some d) ∧
    (∀ cfg node sets comps d, findDefTier1 cfg node comps = none →
        findDefTier2 cfg node sets comps = none →
        findDefTier3 cfg node sets = none →
        findDefTier4 cfg node sets comps = some d →
        findDefinition cfg node sets comps = some d) ∧
    (∀ cfg node sets comps, findDefTier1 cfg node comps = none →
        findDefTier2 cfg node sets comps = none →
        findDefTier3 cfg node sets = none →
        findDefTier4 cfg node sets comps = none →
        findDefinition cfg node sets comps = findDefTier5 cfg node) := by
  refine ⟨?_, ?_, ?_, ?_, ?_, ?_⟩
  · intro cfg node sets comps cid meta d hcid hne hlookup hkey hfind
    have h1 : findDefTier1 cfg node comps = some d := by
      simp [findDefTier1, resolvedComponentMetadata, hcid, hne, hlookup,
        hkey, hfind]
    refine ⟨by simp [findDefinition, h1, Option.orElse], ?_⟩
    have := List.find?_some hfind
    simpa using this
  · intro cfg node sets comps d h1
    simp [findDefinition, h1, Option.orElse]
  · intro cfg node sets comps d h1 h2
    simp [findDefinition, h1, h2, Option.orElse]
  · intro cfg node sets comps d h1 h2 h3
    simp [findDefinition, h1, h2, h3, Option.orElse]
  · intro cfg node sets comps d h1 h2 h3 h4
    simp [findDefinition, h1, h2, h3, h4, Option.orElse]
  · intro cfg node sets comps h1 h2 h3 h4
    simp [findDefinition, h1, h2, h3, h4, Option.orElse]

/-- A demo catalog holding a legacy name-matching definition *before* a
stable-key definition, and an instance whose metadata resolves that stable
key. -/
def demoLegacyDef : ComponentDefinition :=
  { figmaId := some "Button", swiftView := "LegacyButton" }

def demoStableDef : ComponentDefinition :=
  { figmaKey := some "KEY1", swiftView := "DSButton" }

def demoCatalog : ComponentConfiguration :=
  { components := [demoLegacyDef, demoStableDef] }

def demoInstance : FigmaNode :=
  .node { type := "INSTANCE", name := "Button", componentId := some "cid1" } []

def demoComponentsMeta : List (String × FigmaComponentMetadata) :=
  [("cid1", { key := "KEY1", name := "Button" })]

/-- Witness for C4: although the legacy definition matching the instance's
display name appears first in the catalog, the stable-key definition is
returned. -/
theorem findDefinition_priority_witness :
    findDefinition demoCatalog demoInstance [] demoComponentsMeta =
        some demoStableDef ∧
    findDefTier5 demoCatalog demoInstance = some demoLegacyDef := by
  constructor
  · exact (findDefinition_priority.1 demoCatalog demoInstance []
      demoComponentsMeta "cid1" { key := "KEY1", name := "Button" }
      demoStableDef rfl (by decide) rfl (by decide) (by rfl)).1
  · rfl

/-! ## C9 — additive component merge -/

/-- The acceptance test `mergeComponents` applies to one discovered
component: a non-empty set key not already present among the existing
entries' set keys. -/
def mergeKeeps (existing : List ComponentDefinition)
    (d : DiscoveredComponent) : Bool :=
  !(decide (d.setKey = "")) &&
    !(decide (d.setKey ∈ existingSetKeys existing))

/-- The fold of `mergeComponents`, unrolled against an arbitrary
accumulator. -/
lemma mergeComponents_fold (existingKeys : List String)
    (l : List DiscoveredComponent)
    (cs : List ComponentDefinition) (as' ss : List String) :
    l.foldl (mergeStep existingKeys) (cs, as', ss) =
      (cs ++ (l.filter
          (fun d => !(decide (d.setKey = "")) &&
            !(decide (d.setKey ∈ existingKeys)))).map mkDiscoveredDef,
        as' ++ (l.filter
          (fun d => !(decide (d.setKey = "")) &&
            !(decide (d.setKey ∈ existingKeys)))).map (·.setName),
        ss ++ (l.filter
          (fun d => !(decide (d.setKey = "")) &&
            decide (d.setKey ∈ existingKeys))).map (·.setName)) := by
  induction l generalizing cs as' ss with
  | nil => simp
  | cons d l ih =>
    by_cases h1 : d.setKey = ""
    · rw [List.foldl_cons, mergeStep, if_pos h1, ih]
      simp [h1]
    · by_cases h2 : d.setKey ∈ existingKeys
      · rw [List.foldl_cons, mergeStep, if_neg h1, if_pos h2, ih]
        simp [List.filter_cons, h1, h2]
      · rw [List.foldl_cons, mergeStep, if_neg h1, if_neg h2, ih]
        simp [List.filter_cons, h1, h2]

/-- C9: `mergeComponents` is additive-only — the output components list is
exactly the input list (unchanged, in order) followed by the discovered
components whose stable set key is non-empty and not already present among
the existing entries' set keys; discovered components with an
already-present set key are reported as skipped, and the handoff flag is
preserved. -/
theorem mergeComponents_additive (existing : ComponentConfiguration)
    (discovered : List DiscoveredComponent) :
    (mergeComponents existing discovered).1.components =
        existing.components ++
          (discovered.filter (mergeKeeps existing.components)).map
            mkDiscoveredDef ∧
    (mergeComponents existing discovered).2.2 =
        (discovered.filter
          (fun d => !(decide (d.setKey = "")) &&
            decide (d.setKey ∈ existingSetKeys existing.components))).map
          (·.setName) ∧
    (mergeComponents existing discovered).2.1 =
        (discovered.filter (mergeKeeps existing.components)).map
          (·.setName) ∧
    (mergeComponents existing discovered).1.handoffMode =
        existing.handoffMode := by
  simp only [mergeComponents]
  rw [mergeComponents_fold]
  have hk : mergeKeeps existing.components =
      fun d => !(decide (d.setKey = "")) &&
        !(decide (d.setKey ∈ existingSetKeys existing.components)) := rfl
  refine ⟨by rw [hk], by simp, by rw [hk]; simp, by simp⟩

/-! ## C3 — variable-binding resolution -/

/-- The unmapped-variable guidance message. -/
def unmappedVariableMsg (variableId : String) : String :=
  "⚠️ Variable " ++ variableId ++ " not mapped. Add to variable_mapping.json."

/-- A raw-color failure message is never the unmapped-variable message
(they differ at the fourth character). -/
lemma rawColorMsg_ne_unmappedMsg (hex variableId : String) :
    "⚠️ No DS color token found for " ++ hex ++ "." ≠
      unmappedVariableMsg variableId := by
  intro h
  have hd := congrArg String.data h
  simp only [unmappedVariableMsg, String.data_append] at hd
  have h3 := congrArg (fun l => l[3]?) hd
  simp only [List.getElem?_append] at h3
  norm_num at h3
  simp at h3

/-- A binding-map demo: the fill's raw color (white) matches nothing in the
catalog (black only). -/
def demoDefs : DesignTokenDefinitions :=
  { colors := [⟨"Color.primary", 0, 0, 0⟩] }

def demoBoundFill : FigmaFill :=
  { type := "SOLID", color := ⟨1, 1, 1, 1⟩,
    boundVariables := some ⟨some "VariableID:54778:426"⟩ }

def demoUnboundFill : FigmaFill :=
  { type := "SOLID", color := ⟨1, 1, 1, 1⟩,
    boundVariables := some ⟨some "VariableID:99:1"⟩ }

/-- A binding map whose entry maps the bound id to the empty string. -/
def c3EmptyNameMapping : List (String × String) :=
  [("VariableID:54778:426", "")]

/-- Counterexample to C3: the bound id *is* present in the binding map —
mapped to the empty string — yet resolution does not succeed with that
token name: the `if (tokenName)` truthiness guard treats an empty mapped
name as unmapped, so the call fails with the not-mapped message. -/
theorem resolveColorWithBinding_empty_name_fails :
    c3EmptyNameMapping.lookup "VariableID:54778:426" = some "" ∧
    (resolveColorWithBinding demoDefs c3EmptyNameMapping
        demoBoundFill).isSuccess = false ∧
    (resolveColorWithBinding demoDefs c3EmptyNameMapping
        demoBoundFill).message =
      some (unmappedVariableMsg "VariableID:54778:426") :=
  ⟨rfl, rfl, rfl⟩

/-- C3 (amended): resolution of a solid fill carrying a variable-reference
id.  If the id maps to a *non-empty* token name in the binding map,
resolution succeeds and emits exactly that name — no color-tolerance
condition is consulted at all.  If the id is absent from the binding map, or
present but mapped to the empty string (falsy, hence treated as unmapped),
resolution fails unconditionally (it does not fall back to raw matching even
if the raw color would match) with the distinct message directing the caller
to add a mapping — a message no raw-color failure ever produces.  Without a
variable reference the result is exactly `resolveColor` on the raw color. -/
theorem resolveColorWithBinding_spec :
    (∀ defs mapping (fill : FigmaFill) bv variableId tokenName,
        fill.boundVariables = some bv → bv.color = some variableId →
        mapping.lookup variableId = some tokenName → tokenName ≠ "" →
        ∃ tok, resolveColorWithBinding defs mapping fill =
          .success tok tokenName) ∧
    (∀ defs mapping (fill : FigmaFill) bv variableId,
        fill.boundVariables = some bv → bv.color = some variableId →
        (mapping.lookup variableId = none ∨
          mapping.lookup variableId = some "") →
        (resolveColorWithBinding defs mapping fill).isSuccess = false ∧
        (resolveColorWithBinding defs mapping fill).message =
          some (unmappedVariableMsg variableId) ∧
        ∀ m, (resolveColor defs fill.color).message = some m →
          m ≠ unmappedVariableMsg variableId) ∧
    (∀ defs mapping (fill : FigmaFill),
        fill.boundVariables = none →
        resolveColorWithBinding defs mapping fill =
          resolveColor defs fill.color) ∧
    (∀ defs mapping (fill : FigmaFill) bv,
        fill.boundVariables = some bv → bv.color = none →
        resolveColorWithBinding defs mapping fill =
          resolveColor defs fill.color) := by
  refine ⟨?_, ?_, ?_, ?_⟩
  · intro defs mapping fill bv variableId tokenName hbv hcolor hlookup htn
    have hst : strTruthy (some tokenName) = true := by
      simp [strTruthy, htn]
    simp only [resolveColorWithBinding, hbv, hcolor, hlookup, hst, if_true,
      Option.getD_some]
    cases hfind : defs.colors.find? (fun t => t.name = tokenName) with
    | some token =>
      have hname := List.find?_some hfind
      simp only [decide_eq_true_eq] at hname
      refine ⟨token, ?_⟩
      simp only [hfind]
      rw [hname]
    | none =>
      refine ⟨⟨tokenName, fill.color.r, fill.color.g, fill.color.b⟩, ?_⟩
      simp only [hfind]
  · intro defs mapping fill bv variableId hbv hcolor hlookup
    have hst : strTruthy (mapping.lookup variableId) = false := by
      rcases hlookup with h | h <;> simp [h, strTruthy]
    simp only [resolveColorWithBinding, hbv, hcolor, hst,
      Bool.false_eq_true, if_false]
    refine ⟨rfl, rfl, ?_⟩
    intro m hm
    rw [resolveColor] at hm
    cases hfind : defs.colors.find? (fun t => colorClose t fill.color) with
    | some tok =>
      simp only [hfind, TokenResolution.message] at hm
      exact absurd hm (by simp)
    | none =>
      simp only [hfind, TokenResolution.message, Option.some.injEq] at hm
      rw [← hm]
      exact rawColorMsg_ne_unmappedMsg _ _
  · intro defs mapping fill hbv
    simp only [resolveColorWithBinding, hbv]
  · intro defs mapping fill bv hbv hcolor
    simp only [resolveColorWithBinding, hbv, hcolor]

/-- Witness for C3 (amended): a non-empty mapped name yields that token name
even though white is not within tolerance of black; an id missing from the
map fails with the distinct message. -/
theorem resolveColorWithBinding_spec_witness :
    (∃ tok, resolveColorWithBinding demoDefs
        [("VariableID:54778:426", "Color.primary")] demoBoundFill =
        .success tok "Color.primary") ∧
    (resolveColorWithBinding demoDefs
        [("VariableID:54778:426", "Color.primary")] demoUnboundFill).message =
      some (unmappedVariableMsg "VariableID:99:1") := by
  constructor
  · exact resolveColorWithBinding_spec.1 demoDefs
      [("VariableID:54778:426", "Color.primary")] demoBoundFill
      ⟨some "VariableID:54778:426"⟩ "VariableID:54778:426" "Color.primary"
      rfl rfl rfl (by decide)
  · exact (resolveColorWithBinding_spec.2.1 demoDefs
      [("VariableID:54778:426", "Color.primary")] demoUnboundFill
      ⟨some "VariableID:99:1"⟩ "VariableID:99:1" rfl rfl (Or.inl rfl)).2.1

/-! ## C5 — corner-radius resolution -/

/-- A radius catalog whose first in-tolerance entry is not the nearest
entry. -/
def c5Defs : DesignTokenDefinitions :=
  { cornerRadius := [⟨"radius.a", 10⟩, ⟨"radius.b", 12⟩] }

/-- Counterexample to C5: on the catalog `[radius.a = 10, radius.b = 12]`
and input `12`, `resolveCornerRadius` returns `radius.a` (the first entry
within the 2 px tolerance in catalog order), although `radius.b` is strictly
nearer by absolute difference — so the returned token is not the
nearest-by-absolute-difference entry the claim describes. -/
theorem resolveCornerRadius_not_nearest :
    resolveCornerRadius c5Defs 12 = .success ⟨"radius.a", 10⟩ "radius.a" ∧
    (⟨"radius.b", 12⟩ : CornerRadiusToken) ∈ c5Defs.cornerRadius ∧
    |(12 : ℚ) - 12| < |(10 : ℚ) - 12| := by
  refine ⟨?_, by simp [c5Defs], by norm_num⟩
  rw [resolveCornerRadius]
  have hfind : c5Defs.cornerRadius.find?
      (fun t => |t.value - 12| ≤ SPACING_TOLERANCE) =
      some ⟨"radius.a", 10⟩ := by
    rw [show c5Defs.cornerRadius =
      [⟨"radius.a", 10⟩, ⟨"radius.b", 12⟩] from rfl]
    rw [List.find?_cons_of_pos]
    norm_num [SPACING_TOLERANCE]
  rw [hfind]

/-- C5 (amended): `resolveCornerRadius` succeeds exactly when some catalog
entry — equivalently the nearest-by-absolute-difference entry — is within
2 px of the input; but on success the returned token (whose name is the
emitted reference) is the *first* catalog entry in catalog order within
2 px, not necessarily the nearest one. -/
theorem resolveCornerRadius_first_match (defs : DesignTokenDefinitions)
    (px : ℚ) :
    ((resolveCornerRadius defs px).isSuccess = true ↔
      ∃ t ∈ defs.cornerRadius, |t.value - px| ≤ 2) ∧
    (∀ tok ref, resolveCornerRadius defs px = .success tok ref →
      ref = tok.name ∧ |tok.value - px| ≤ 2 ∧
        ∃ pre post, defs.cornerRadius = pre ++ tok :: post ∧
          ∀ u ∈ pre, ¬|u.value - px| ≤ 2) := by
  have htol : SPACING_TOLERANCE = 2 := rfl
  constructor
  · rw [resolveCornerRadius]
    cases hfind : defs.cornerRadius.find?
        (fun t => |t.value - px| ≤ SPACING_TOLERANCE) with
    | some m =>
      obtain ⟨hm, pre, post, heq, -⟩ :=
        (find?_eq_some_split _ _ _).mp hfind
      simp only [decide_eq_true_eq, htol] at hm
      simp only [TokenResolution.isSuccess, true_iff]
      exact ⟨m, by simp [heq], hm⟩
    | none =>
      have := List.find?_eq_none.mp hfind
      simp only [decide_eq_true_eq, htol] at this
      simp only [TokenResolution.isSuccess]
      constructor
      · intro hff
        exact absurd hff (by simp)
      · rintro ⟨t, ht, hle⟩
        exact absurd hle (this t ht)
  · intro tok ref h
    rw [resolveCornerRadius] at h
    cases hfind : defs.cornerRadius.find?
        (fun t => |t.value - px| ≤ SPACING_TOLERANCE) with
    | some m =>
      rw [hfind] at h
      obtain ⟨rfl, rfl⟩ := TokenResolution.success.injEq .. ▸ h
      obtain ⟨hm, pre, post, heq, hpre⟩ :=
        (find?_eq_some_split _ _ _).mp hfind
      simp only [decide_eq_true_eq, htol] at hm
      refine ⟨rfl, hm, pre, post, heq, ?_⟩
      intro u hu
      have := hpre u hu
      simpa [htol] using this
    | none => rw [hfind] at h; exact absurd h (by simp)

/-- Witness for C5 (amended): the same catalog at input `12` succeeds, via
the nearest entry `radius.b` being within tolerance. -/
theorem resolveCornerRadius_first_match_witness :
    (resolveCornerRadius c5Defs 12).isSuccess = true :=
  (resolveCornerRadius_first_match c5Defs 12).1.mpr
    ⟨⟨"radius.b", 12⟩, by simp [c5Defs], by norm_num⟩

/-! ## C6 — color resolution -/

/-- The comparator key relation used to rank color candidates is transitive
and total. -/
lemma colorDist2_le_trans (c : FigmaColor) :
    ∀ a b d : ColorToken,
      decide (colorDist2 a c ≤ colorDist2 b c) = true →
      decide (colorDist2 b c ≤ colorDist2 d c) = true →
      decide (colorDist2 a c ≤ colorDist2 d c) = true := by
  intro a b d h1 h2
  simp only [decide_eq_true_eq] at *
  exact le_trans h1 h2

lemma colorDist2_le_total (c : FigmaColor) :
    ∀ a b : ColorToken,
      (decide (colorDist2 a c ≤ colorDist2 b c) ||
        decide (colorDist2 b c ≤ colorDist2 a c)) = true := by
  intro a b
  simp only [Bool.or_eq_true, decide_eq_true_eq]
  exact le_total _ _

/-- C6: `resolveColor` succeeds exactly when some catalog entry is within
0.05 of the input in each of r, g and b independently (per-channel
tolerance); the returned token is the first such entry in catalog order and
its name is the emitted reference.  On failure the raw value is the hex
encoding of the input, and the closest matches are the first two entries of
a permutation of the catalog ordered by (squared) Euclidean RGB distance —
so at most 2 entries, ranked by Euclidean distance. -/
theorem resolveColor_spec (defs : DesignTokenDefinitions) (c : FigmaColor) :
    ((resolveColor defs c).isSuccess = true ↔
      ∃ t ∈ defs.colors, |t.r - c.r| ≤ 5/100 ∧ |t.g - c.g| ≤ 5/100 ∧
        |t.b - c.b| ≤ 5/100) ∧
    (∀ tok ref, resolveColor defs c = .success tok ref →
      ref = tok.name ∧
        (|tok.r - c.r| ≤ 5/100 ∧ |tok.g - c.g| ≤ 5/100 ∧
          |tok.b - c.b| ≤ 5/100) ∧
        ∃ pre post, defs.colors = pre ++ tok :: post ∧
          ∀ u ∈ pre, ¬(|u.r - c.r| ≤ 5/100 ∧ |u.g - c.g| ≤ 5/100 ∧
            |u.b - c.b| ≤ 5/100)) ∧
    (∀ rv msg cms, resolveColor defs c = .failure rv msg cms →
      rv = colorToHex c ∧ cms.length = min 2 defs.colors.length ∧
        ∃ ranked : List ColorToken, ranked.Perm defs.colors ∧
          List.Pairwise (fun a b => colorDist2 a c ≤ colorDist2 b c) ranked ∧
          cms = (ranked.take 2).map (fun t => (t.name, colorTokenToHex t))) := by
  have hclose : ∀ t : ColorToken, colorClose t c = true ↔
      (|t.r - c.r| ≤ 5/100 ∧ |t.g - c.g| ≤ 5/100 ∧ |t.b - c.b| ≤ 5/100) := by
    intro t
    simp [colorClose, COLOR_TOLERANCE]
  refine ⟨?_, ?_, ?_⟩
  · rw [resolveColor]
    cases hfind : defs.colors.find? (fun t => colorClose t c) with
    | some m =>
      obtain ⟨hm, pre, post, heq, -⟩ := (find?_eq_some_split _ _ _).mp hfind
      simp only [TokenResolution.isSuccess]
      constructor
      · intro
        exact ⟨m, by simp [heq], (hclose m).mp hm⟩
      · intro
        trivial
    | none =>
      have hall := List.find?_eq_none.mp hfind
      simp only [TokenResolution.isSuccess]
      constructor
      · intro hff
        exact absurd hff (by simp)
      · rintro ⟨t, ht, hc3⟩
        exact absurd ((hclose t).mpr hc3) (hall t ht)
  · intro tok ref h
    rw [resolveColor] at h
    cases hfind : defs.colors.find? (fun t => colorClose t c) with
    | some m =>
      rw [hfind] at h
      obtain ⟨rfl, rfl⟩ := TokenResolution.success.injEq .. ▸ h
      obtain ⟨hm, pre, post, heq, hpre⟩ := (find?_eq_some_split _ _ _).mp hfind
      refine ⟨rfl, (hclose _).mp hm, pre, post, heq, ?_⟩
      intro u hu hc3
      have := hpre u hu
      rw [(by simp : (colorClose u c = false) ↔ ¬(colorClose u c = true))]
        at this
      exact this ((hclose u).mpr hc3)
    | none => rw [hfind] at h; exact absurd h (by simp)
  · intro rv msg cms h
    rw [resolveColor] at h
    cases hfind : defs.colors.find? (fun t => colorClose t c) with
    | some m => rw [hfind] at h; exact absurd h (by simp)
    | none =>
      rw [hfind] at h
      obtain ⟨h1, -, h3⟩ := TokenResolution.failure.injEq .. ▸ h
      refine ⟨h1.symm, ?_, ?_⟩
      · rw [← h3]
        simp only [getClosestColorMatches, List.length_map, List.length_take]
        rw [List.Perm.length_eq (List.mergeSort_perm defs.colors _)]
      · refine ⟨defs.colors.mergeSort
          (fun a b => colorDist2 a c ≤ colorDist2 b c), ?_, ?_, ?_⟩
        · exact List.mergeSort_perm defs.colors _
        · have := List.sorted_mergeSort (colorDist2_le_trans c)
            (colorDist2_le_total c) defs.colors
          exact this.imp (fun h => by simpa using h)
        · rw [← h3]; rfl

/-- C6 demo catalog: a single black token. -/
def c6Defs : DesignTokenDefinitions := { colors := [⟨"Color.black", 0, 0, 0⟩] }

/-- Witness for C6: a color off by exactly 0.05 in two channels succeeds
(per-channel tolerance), while a color off by 0.06 in a single channel —
Euclidean distance 0.06 — fails. -/
theorem resolveColor_spec_witness :
    (resolveColor c6Defs ⟨5/100, 5/100, 0, 1⟩).isSuccess = true ∧
    (resolveColor c6Defs ⟨6/100, 0, 0, 1⟩).isSuccess = false := by
  constructor
  · exact (resolveColor_spec c6Defs ⟨5/100, 5/100, 0, 1⟩).1.mpr
      ⟨⟨"Color.black", 0, 0, 0⟩, by simp [c6Defs], by norm_num [abs_le]⟩
  · have hiff := (resolveColor_spec c6Defs ⟨6/100, 0, 0, 1⟩).1
    have hno : ¬∃ t ∈ c6Defs.colors, |t.r - (6:ℚ)/100| ≤ 5/100 ∧
        |t.g - 0| ≤ 5/100 ∧ |t.b - 0| ≤ 5/100 := by
      rintro ⟨t, ht, h1, -, -⟩
      simp only [c6Defs, List.mem_singleton] at ht
      subst ht
      rw [abs_le] at h1
      norm_num at h1
    cases hS : (resolveColor c6Defs ⟨6/100, 0, 0, 1⟩).isSuccess with
    | false => rfl
    | true => exact absurd (hiff.mp hS) hno

/-! ## C8 — pruned style bag -/

/-- The style bag with every hint absent. -/
def emptyPrunedStyle : PrunedStyle := ⟨none, none, none, none, none, none⟩

/-- The style bag of a pruned node, extracted from the recursive
definition. -/
lemma pruneNodeData_style (d : NodeData) (cs : List FigmaNode)
    (tr : Option DesignTokenDefinitions) (depth : ℕ) :
    (pruneNodeData (.node d cs) tr depth).style =
      (if pruneStyleGuard d then some (pruneStyleBag d tr) else none) := by
  rw [pruneNodeData]
  rfl

/-- A frame with an explicit `layoutMode: 'NONE'` and no other style
information. -/
def c8Node : FigmaNode :=
  .node { id := "1:1", name := "Frame", type := "FRAME",
          layoutMode := some .NONE } []

/-- Counterexample to C8: pruning a node whose only style-relevant field is
`layoutMode: 'NONE'` — the default layout mode, hence not a style hint —
produces a pruned copy carrying an *empty* style object, which the claim
says never happens. -/
theorem pruneNodeData_emits_empty_style :
    (pruneNodeData c8Node none 0).style = some emptyPrunedStyle ∧
    c8Node.data.style = none ∧
    numTruthy c8Node.data.cornerRadius = false ∧
    c8Node.data.layoutMode = some .NONE := by
  refine ⟨?_, rfl, rfl, rfl⟩
  rw [show c8Node = .node c8Node.data [] from rfl, pruneNodeData_style]
  rw [if_pos (by rfl)]
  rfl

/-- C8 (amended): the pruned copy contains a style object iff the node has a
text style, a truthy (nonzero) corner radius, or *any* `layoutMode` value —
including the default `'NONE'`.  Consequently the style object can be empty:
that happens exactly when the node's only style-relevant field is
`layoutMode: 'NONE'`. -/
theorem pruneNodeData_style_iff (node : FigmaNode)
    (tr : Option DesignTokenDefinitions) (depth : ℕ) :
    ((pruneNodeData node tr depth).style.isSome = true ↔
      (node.data.style.isSome = true ∨
        numTruthy node.data.cornerRadius = true ∨
        node.data.layoutMode.isSome = true)) ∧
    (∀ bag, (pruneNodeData node tr depth).style = some bag →
      (bag = emptyPrunedStyle ↔
        (node.data.style = none ∧
          numTruthy node.data.cornerRadius = false ∧
          node.data.layoutMode = some .NONE))) := by
  obtain ⟨d, cs⟩ := node
  rw [pruneNodeData_style]
  simp only [FigmaNode.data]
  constructor
  · by_cases hg : pruneStyleGuard d = true
    · rw [if_pos hg]
      simp only [Option.isSome_some, true_iff]
      simpa [pruneStyleGuard, or_assoc] using hg
    · rw [if_neg hg]
      simp only [Option.isSome_none]
      constructor
      · intro hff
        exact absurd hff (by simp)
      · intro hor
        exact absurd (by simpa [pruneStyleGuard, or_assoc] using hor) hg
  · intro bag hbag
    by_cases hg : pruneStyleGuard d = true
    · rw [if_pos hg] at hbag
      obtain rfl := Option.some.injEq .. ▸ hbag
      constructor
      · intro hempty
        have hff := congrArg PrunedStyle.fontFamily hempty
        have hcr := congrArg PrunedStyle.cornerRadius hempty
        have hlm := congrArg PrunedStyle.layoutMode hempty
        simp only [pruneStyleBag, emptyPrunedStyle] at hff hcr hlm
        have hstyle : d.style = none := by
          cases hs : d.style
          · rfl
          · rw [hs] at hff; simp at hff
        have hcr' : numTruthy d.cornerRadius = false := by
          by_cases h : numTruthy d.cornerRadius = true
          · rw [if_pos h] at hcr
            cases hc : d.cornerRadius
            · simp [numTruthy, hc] at h
            · rw [hc] at hcr; simp at hcr
          · simpa using h
        have hlm' : d.layoutMode = some .NONE := by
          cases hl : d.layoutMode with
          | none =>
            rw [pruneStyleGuard, hstyle, hcr', hl] at hg
            simp at hg
          | some lm =>
            cases lm
            · rfl
            · rw [hl] at hlm; simp at hlm
            · rw [hl] at hlm; simp at hlm
        exact ⟨hstyle, hcr', hlm'⟩
      · rintro ⟨h1, h2, h3⟩
        simp [pruneStyleBag, emptyPrunedStyle, h1, h2, h3]
    · rw [if_neg hg] at hbag
      exact absurd hbag (by simp)

/-- Witness for C8 (amended): a node with a nonzero corner radius gets a
non-empty style bag. -/
def c8RadiusNode : FigmaNode :=
  .node { id := "1:2", name := "Card", type := "FRAME",
          cornerRadius := some 8 } []

theorem pruneNodeData_style_iff_witness :
    (pruneNodeData c8RadiusNode none 0).style.isSome = true ∧
    ∀ bag, (pruneNodeData c8RadiusNode none 0).style = some bag →
      bag ≠ emptyPrunedStyle := by
  constructor
  · exact (pruneNodeData_style_iff c8RadiusNode none 0).1.mpr
      (Or.inr (Or.inl (by
        show numTruthy (some 8) = true
        simp [numTruthy])))
  · intro bag hbag hempty
    have := ((pruneNodeData_style_iff c8RadiusNode none 0).2 bag hbag).mp
      hempty
    have h2 := this.2.1
    rw [show c8RadiusNode.data.cornerRadius = some 8 from rfl] at h2
    simp [numTruthy] at h2

/-! ## C7 — container alignment mapping -/

/-- The alignment the claim describes, written from the claim's words for
comparison with the code: rows and columns derive the parameter from the
*cross-axis* enum (`counterAxisAlignItems`) with start→leading/top,
center→center, end→trailing/bottom, baseline only on the row cross-axis and
otherwise center, unset/unrecognized defaulting to leading/start; a
free-positioning container gets a fixed top-start origin. -/
def claimAlignmentC7 (node : FigmaNode) : String :=
  let st := getStackType node
  if st = "ZStack" then ".topLeading"
  else
    match node.data.counterAxisAlignItems with
    | some .MIN => if st = "VStack" then ".leading" else ".top"
    | some .CENTER => ".center"
    | some .MAX => if st = "VStack" then ".trailing" else ".bottom"
    | some .BASELINE => if st = "HStack" then ".firstTextBaseline" else ".center"
    | _ => if st = "VStack" then ".leading" else ".top"

/-- A row whose cross-axis alignment is center but whose main-axis alignment
is start. -/
def c7Node : FigmaNode :=
  .node { type := "FRAME", name := "Row",
          layoutMode := some .HORIZONTAL,
          primaryAxisAlignItems := some .MIN,
          counterAxisAlignItems := some .CENTER } []

/-- Counterexample to C7: for a row the code derives the alignment parameter
from the *main-axis* enum (`primaryAxisAlignItems`), not the cross-axis
enum — on a row with cross-axis center and main-axis start the code emits
`.top` where the claim's cross-axis mapping yields `.center`. -/
theorem getAlignment_not_crossAxis :
    getStackType c7Node = "HStack" ∧
    getAlignment c7Node (getStackType c7Node) = ".top" ∧
    claimAlignmentC7 c7Node = ".center" ∧
    getAlignment c7Node (getStackType c7Node) ≠ claimAlignmentC7 c7Node := by
  refine ⟨rfl, rfl, rfl, by decide⟩

/-- C7 (amended): a column derives the alignment parameter from the
cross-axis enum, but a row derives it from the *main-axis* enum; the value
mapping is start→leading/top, center→center, end→trailing/bottom,
baseline→firstTextBaseline on a row and center on a column; unset or
unrecognized alignment defaults to leading for a column but center for a
row; and a free-positioning container always gets `.center` (not a
top-start origin). -/
theorem getAlignment_mapping :
    (∀ node : FigmaNode, node.data.layoutMode = some .HORIZONTAL →
      getAlignment node (getStackType node) =
        mapAlignment node.data.primaryAxisAlignItems "HStack") ∧
    (∀ node : FigmaNode, node.data.layoutMode = some .VERTICAL →
      getAlignment node (getStackType node) =
        mapAlignment node.data.counterAxisAlignItems "VStack") ∧
    (∀ node : FigmaNode, node.data.layoutMode = some .NONE →
      getAlignment node (getStackType node) = ".center") ∧
    (mapAlignment (some .MIN) "VStack" = ".leading" ∧
      mapAlignment (some .MIN) "HStack" = ".top") ∧
    (mapAlignment (some .CENTER) "VStack" = ".center" ∧
      mapAlignment (some .CENTER) "HStack" = ".center") ∧
    (mapAlignment (some .MAX) "VStack" = ".trailing" ∧
      mapAlignment (some .MAX) "HStack" = ".bottom") ∧
    (mapAlignment (some .BASELINE) "HStack" = ".firstTextBaseline" ∧
      mapAlignment (some .BASELINE) "VStack" = ".center") ∧
    (mapAlignment none "VStack" = ".leading" ∧
      mapAlignment none "HStack" = ".center") ∧
    (mapAlignment (some .STRETCH) "VStack" = ".leading" ∧
      mapAlignment (some .STRETCH) "HStack" = ".center" ∧
      mapAlignment (some .SPACE_BETWEEN) "VStack" = ".leading" ∧
      mapAlignment (some .SPACE_BETWEEN) "HStack" = ".center") := by
  refine ⟨?_, ?_, ?_, by decide, by decide, by decide, by decide, by decide,
    by decide⟩
  · intro node h
    rw [getAlignment, getStackType, h]
    simp
  · intro node h
    rw [getAlignment, getStackType, h]
    simp
  · intro node h
    rw [getAlignment, getStackType, h]
    rfl

/-- Witness for C7 (amended): the counterexample row again — the code takes
the main-axis value `MIN` and maps it to `.top`. -/
theorem getAlignment_mapping_witness :
    getAlignment c7Node (getStackType c7Node) = ".top" := by
  have h1 := getAlignment_mapping.1 c7Node rfl
  have h2 := getAlignment_mapping.2.2.2.1.2
  rw [show c7Node.data.primaryAxisAlignItems = some .MIN from rfl] at h1
  rw [h1, h2]

/-! ## C10 — handoff mode defaults to true -/

/-- C10: with `handoffMode` unset the translator behaves exactly as with
`handoffMode = true`: it prefixes the provenance header (and the source-file
reference when configured) and appends the action-handler TODO for
interactive-looking components; an explicit `handoffMode = false` strips the
output down to the bare component call. -/
theorem handoffMode_defaults_true :
    (∀ cfg node ctx, cfg.handoffMode = none →
      configurableTranslate cfg node ctx =
        configurableTranslate { cfg with handoffMode := some true } node
          ctx) ∧
    (∀ cfg node ctx d, handoffModeEff cfg = true →
      findDefinition cfg node ctx.componentSets ctx.components = some d →
      (configurableTranslateLines cfg node ctx).head? =
        some (spaces ctx.indentionLevel ++ "// HANDOFF: " ++ d.swiftView ++
          " from Figma") ∧
      (strTruthy d.sourceFile = true →
        (configurableTranslateLines cfg node ctx).get? 1 =
          some (spaces ctx.indentionLevel ++ "// Reference: " ++
            d.sourceFile.getD "")) ∧
      (looksInteractive d node = true →
        (configurableTranslateLines cfg node ctx).getLast? =
          some (spaces ctx.indentionLevel ++
            "    // TODO: Add action handler"))) ∧
    (∀ cfg : ComponentConfiguration, cfg.handoffMode = none →
      handoffModeEff cfg = true) ∧
    (∀ cfg node ctx d, cfg.handoffMode = some false →
      findDefinition cfg node ctx.componentSets ctx.components = some d →
      configurableTranslateLines cfg node ctx =
        [spaces ctx.indentionLevel ++ d.swiftView ++ "(" ++
          String.intercalate ", "
            ((d.params.getD []).map
              (fun p => p.2 ++ ": " ++ resolveValue node p.1)) ++ ")"]) := by
  refine ⟨?_, ?_, ?_, ?_⟩
  · intro cfg node ctx h
    have he : handoffModeEff cfg = true := by
      rw [handoffModeEff, h]; rfl
    have he' : handoffModeEff { cfg with handoffMode := some true } = true :=
      rfl
    rw [configurableTranslate, configurableTranslate,
      configurableTranslateLines, configurableTranslateLines, he, he']
    rfl
  · intro cfg node ctx d he hfind
    rw [configurableTranslateLines, hfind]
    simp only [he, if_true]
    refine ⟨by simp, ?_, ?_⟩
    · intro hsf
      simp [hsf]
    · intro hint
      simp only [he, hint, and_self, if_true, true_and]
      exact List.getLast?_concat _
  · intro cfg h
    rw [handoffModeEff, h]
    rfl
  · intro cfg node ctx d h hfind
    have he : handoffModeEff cfg = false := by
      rw [handoffModeEff, h]; rfl
    rw [configurableTranslateLines, hfind]
    simp only [he, Bool.false_eq_true, if_false, false_and, if_neg,
      List.nil_append, List.append_nil]
    cases hp : d.params with
    | some ps => simp
    | none => simp

/-- A handoff-mode demo: an interactive-looking button component resolved by
stable key, in a configuration that leaves `handoffMode` unset. -/
def c10Config : ComponentConfiguration :=
  { components :=
      [{ figmaKey := some "BKEY", swiftView := "DSButton",
         sourceFile := some "Sources/DS/DSButton.swift" }] }

def c10Node : FigmaNode :=
  .node { type := "INSTANCE", name := "Primary Button",
          componentId := some "42:1" } []

def c10Ctx : TranslationContext :=
  { components := [("42:1", { key := "BKEY", name := "Button" })] }

/-- Witness for C10: with `handoffMode` unset the emitted lines start with
the provenance header, carry the source-file reference, and end with the
action-handler TODO. -/
theorem handoffMode_defaults_true_witness :
    (configurableTranslateLines c10Config c10Node c10Ctx).head? =
        some "// HANDOFF: DSButton from Figma" ∧
    (configurableTranslateLines c10Config c10Node c10Ctx).get? 1 =
        some "// Reference: Sources/DS/DSButton.swift" ∧
    (configurableTranslateLines c10Config c10Node c10Ctx).getLast? =
        some "    // TODO: Add action handler" := by
  have hfind : findDefinition c10Config c10Node c10Ctx.componentSets
      c10Ctx.components =
      some { figmaKey := some "BKEY", swiftView := "DSButton",
             sourceFile := some "Sources/DS/DSButton.swift" } := rfl
  have h := handoffMode_defaults_true.2.1 c10Config c10Node c10Ctx _ rfl hfind
  refine ⟨?_, ?_, ?_⟩
  · rw [h.1]; rfl
  · rw [h.2.1 (by rfl)]; rfl
  · rw [h.2.2 (by rfl)]; rfl

/-! ## C2 — space-between spacers -/

/-- Appending to the last element distributes over a nonempty suffix. -/
lemma appendToLast_append (s : String) (A B : List String) (hB : B ≠ []) :
    appendToLast s (A ++ B) = A ++ appendToLast s B := by
  induction A with
  | nil => simp
  | cons a A ih =>
    have hAB : A ++ B ≠ [] := by
      intro h
      exact hB (List.append_eq_nil.mp h).2
    rw [List.cons_append]
    cases hA : A ++ B with
    | nil => exact absurd hA hAB
    | cons x xs =>
      rw [show appendToLast s (a :: x :: xs) = a :: appendToLast s (x :: xs)
          from rfl, ← hA, ih]
      rfl

/-- Splitting an `appendToLast` around the child-lines block: the trailing
name comment lands inside the nonempty suffix, never inside the child
block. -/
lemma appendToLast_layout (s : String) (P1 P2 P3 I R1 R2 R3 : List String)
    (hR1 : R1 ≠ []) :
    ∃ pre suf, appendToLast s (P1 ++ P2 ++ P3 ++ I ++ R1 ++ R2 ++ R3) =
      pre ++ I ++ suf := by
  refine ⟨P1 ++ P2 ++ P3, appendToLast s (R1 ++ R2 ++ R3), ?_⟩
  have h1 : P1 ++ P2 ++ P3 ++ I ++ R1 ++ R2 ++ R3 =
      (P1 ++ P2 ++ P3 ++ I) ++ (R1 ++ R2 ++ R3) := by
    simp [List.append_assoc]
  have h2 : R1 ++ R2 ++ R3 ≠ [] := by
    intro hh
    rw [List.append_eq_nil, List.append_eq_nil] at hh
    exact hR1 hh.1.1
  rw [h1, appendToLast_append s _ _ h2]

/-- Same splitting for the Compose translator's five-piece line list. -/
lemma appendToLast_layoutCompose (s : String) (P1 P2 I R1 R2 : List String)
    (hR1 : R1 ≠ []) :
    ∃ pre suf, appendToLast s (P1 ++ P2 ++ I ++ R1 ++ R2) =
      pre ++ I ++ suf := by
  refine ⟨P1 ++ P2, appendToLast s (R1 ++ R2), ?_⟩
  have h1 : P1 ++ P2 ++ I ++ R1 ++ R2 =
      (P1 ++ P2 ++ I) ++ (R1 ++ R2) := by
    simp [List.append_assoc]
  have h2 : R1 ++ R2 ≠ [] := by
    intro hh
    rw [List.append_eq_nil] at hh
    exact hR1 hh.1
  rw [h1, appendToLast_append s _ _ h2]

/-- C2 (amended): under a space-between main axis both layout translators
emit the rendered flow children with exactly one spacer between each
adjacent pair and never one after the last child; the Compose translator's
arrangement is then independent of the spacing resolution (no
`spacedBy` arrangement is set), but the SwiftUI frame translator still sets
its `spacing:` parameter from `itemSpacing` even under space-between. -/
theorem spaceBetween_spacers :
    (∀ defs recur node ctx,
      node.data.primaryAxisAlignItems = some FigmaAlignItems.SPACE_BETWEEN →
      ∃ pre suf, frameTranslateLines defs recur node ctx =
        pre ++ List.intersperse (layoutEffChildIndent node ctx ++ "Spacer()")
          ((node.children.filter
            (fun c => c.data.layoutPositioning ≠ some "ABSOLUTE")).map
            (fun c => wrapChildWithSizing (recur c (layoutChildCtx node ctx))
              c (layoutEffChildIndent node ctx))) ++ suf) ∧
    (∀ defs recur node ctx,
      node.data.primaryAxisAlignItems = some FigmaAlignItems.SPACE_BETWEEN →
      ∃ pre suf, composeTranslateLines defs recur node ctx =
        pre ++ List.intersperse (layoutEffChildIndent node ctx ++ "Spacer()")
          ((node.children.filter
            (fun c => c.data.layoutPositioning ≠ some "ABSOLUTE")).map
            (fun c => composeWrapChildWithSizing
              (recur c (layoutChildCtx node ctx)) c
              (layoutEffChildIndent node ctx))) ++ suf) ∧
    (∀ node layoutType s1 s2,
      node.data.primaryAxisAlignItems = some FigmaAlignItems.SPACE_BETWEEN →
      composeGetArrangementAndAlignment node layoutType s1 =
        composeGetArrangementAndAlignment node layoutType s2) := by
  refine ⟨?_, ?_, ?_⟩
  · intro defs recur node ctx h
    rw [frameTranslateLines]
    simp only [h, decide_True]
    rw [spacedChildren_spaceBetween]
    exact appendToLast_layout _ _ _ _ _ _ _ _ (by simp)
  · intro defs recur node ctx h
    rw [composeTranslateLines]
    simp only [h, decide_True]
    rw [spacedChildren_spaceBetween]
    exact appendToLast_layoutCompose _ _ _ _ _ _ (by simp)
  · intro node layoutType s1 s2 h
    rw [composeGetArrangementAndAlignment, composeGetArrangementAndAlignment,
      h]
    simp

/-- The spacing catalog and the three-text-child space-between row used to
refute the original claim. -/
def c2Defs : DesignTokenDefinitions := { spacing := [⟨"Spacing.small", 8⟩] }

def c2Child (nm : String) : FigmaNode :=
  .node { type := "TEXT", name := nm, characters := some nm } []

def c2Node : FigmaNode :=
  .node { type := "FRAME", name := "Row",
          layoutMode := some .HORIZONTAL,
          primaryAxisAlignItems := some .SPACE_BETWEEN,
          itemSpacing := some 8 }
    [c2Child "A", c2Child "B", c2Child "C"]

/-- Witness for C2 (amended): the interspersed-spacer decomposition applied
to the concrete three-child space-between row. -/
theorem spaceBetween_spacers_witness :
    ∃ pre suf,
      frameTranslateLines c2Defs (fun c cctx => textTranslate c2Defs c cctx)
          c2Node {} =
        pre ++
          List.intersperse (layoutEffChildIndent c2Node {} ++ "Spacer()")
            ((c2Node.children.filter
              (fun c => c.data.layoutPositioning ≠ some "ABSOLUTE")).map
              (fun c =>
                wrapChildWithSizing
                  ((fun c cctx => textTranslate c2Defs c cctx) c
                    (layoutChildCtx c2Node {}))
                  c (layoutEffChildIndent c2Node {}))) ++ suf :=
  spaceBetween_spacers.1 c2Defs (fun c cctx => textTranslate c2Defs c cctx)
    c2Node {} rfl

/-- Counterexample to C2: a three-child space-between row with
`itemSpacing: 8` does emit exactly 2 spacers — but the SwiftUI frame
translator *additionally* sets the resolved token spacing value
`spacing: Spacing.small` on the container, which the claim rules out. -/
theorem frameTranslate_spaceBetween_sets_spacing :
    frameTranslateLines c2Defs (fun c cctx => textTranslate c2Defs c cctx)
        c2Node {} =
      ["HStack(alignment: .center, spacing: Spacing.small) \x7b",
       "    Text(\"A\")",
       "    Spacer()",
       "    Text(\"B\")",
       "    Spacer()",
       "    Text(\"C\")",
       "\x7d // Row"] ∧
    c2Node.data.primaryAxisAlignItems = some .SPACE_BETWEEN ∧
    strIncludes "HStack(alignment: .center, spacing: Spacing.small) \x7b"
      ", spacing: " = true := by
  have hsp : resolveSpacing c2Defs 8 =
      .success ⟨"Spacing.small", 8⟩ "Spacing.small" := by
    rw [resolveSpacing]
    rw [show findClosestSpacing c2Defs.spacing 8 =
      some ⟨"Spacing.small", 8⟩ from rfl]
    norm_num [SPACING_TOLERANCE]
  have hmap : c2Node.data.itemSpacing.map
      (fun v => (v, resolveSpacing c2Defs v)) =
      some (8, TokenResolution.success ⟨"Spacing.small", 8⟩
        "Spacing.small") := by
    rw [show c2Node.data.itemSpacing = some 8 from rfl, Option.map_some',
      hsp]
  refine ⟨?_, rfl, by decide⟩
  rw [frameTranslateLines, hmap]
  rfl

end FigmaMcp
